import Mathlib

/-!
Verification of the agentproxy relay core against its specification.

The development shallowly embeds the relevant Rust sources:
* `src/src/relay.rs` — the MCP `Relay` handler (RBAC gate, `target:item`
  name splitting, `list_*` fan-out and rewriting);
* `src/src/a2a/relay.rs` — the A2A relay (`proxy_request` content-type
  classification, `ConnectionPool::get_or_create` / `connect`);
* `src/crates/agentgateway/src/mcp/openapi/mod.rs` — the OpenAPI 3.0
  tool synthesizer (`parse_openapi_v3_0_schema` and its helpers);
* `src/crates/agentgateway/src/mcp/openapi/v3_1.rs` and
  `compatibility.rs` — the OpenAPI 3.1 path
  (`create_tool_from_operation`, `normalize_schema_v3_1`,
  `parse_schema`, `normalize_type_array`).

Machine maps and JSON objects are modelled as association lists with the
insertion semantics of the corresponding Rust containers; fallible code
returns `Except`; code that can `panic!` in Rust is modelled with an
explicit `panicked` outcome.
-/

/-- Minimal model of `serde_json::Value`.  Only the shapes the embedded
code inspects are needed; numbers are modelled as integers (no claim
depends on float behaviour). -/
inductive Json where
  | null : Json
  | bool (b : Bool) : Json
  | num (n : Int) : Json
  | str (s : String) : Json
  | arr (elems : List Json) : Json
  | obj (fields : List (String × Json)) : Json

/-- Field lookup on a JSON object (`Value::get`); `none` on non-objects. -/
def Json.lookup (k : String) : Json → Option Json
  | .obj fields => fields.lookup k
  | _ => none

/-- Insert-or-replace for an association list, mirroring map insertion
that keeps the position of an existing key and appends a new key. -/
def upsertField (k : String) (v : Json) : List (String × Json) → List (String × Json)
  | [] => [(k, v)]
  | (k0, v0) :: rest => if k0 = k then (k, v) :: rest else (k0, v0) :: upsertField k v rest

/-- Index assignment `value[k] = v` of `serde_json`; on non-objects the
Rust code would panic, but every modelled call site is guarded by a
successful `get`, so that case is unreachable and left as the identity. -/
def Json.setKey (j : Json) (k : String) (v : Json) : Json :=
  match j with
  | .obj fields => .obj (upsertField k v fields)
  | j0 => j0

/-- Collect a sequence of key/value pairs into a JSON object the way
`Map::insert` does in a loop: later values for the same key win. -/
def insertAllFields (acc : List (String × Json)) : List (String × Json) → List (String × Json)
  | [] => acc
  | (k, v) :: rest => insertAllFields (upsertField k v acc) rest

/-- The keys of a JSON object-as-list. -/
def fieldKeys (fields : List (String × Json)) : List String := fields.map Prod.fst

/-- Rust `str::split_once(c)` on the underlying character list: split at
the first occurrence of `c`. -/
def splitOnceChars (c : Char) : List Char → Option (List Char × List Char)
  | [] => none
  | x :: xs =>
    if x = c then some ([], xs)
    else (splitOnceChars c xs).map (fun p => (x :: p.1, p.2))

/-- Rust `str::split_once(c)` on strings. -/
def splitOnce (c : Char) (s : String) : Option (String × String) :=
  (splitOnceChars c s.toList).map (fun p => (String.mk p.1, String.mk p.2))

/-! ## MCP relay handlers (`src/src/relay.rs`) -/

/-- RBAC resource kinds (`rbac::ResourceType`). -/
inductive ResourceKind where
  | tool (id : String)
  | res (id : String)
  | prompt (id : String)
deriving DecidableEq, Repr

/-- The MCP error values the relay constructs (`rmcp::Error`). -/
inductive McpError where
  | invalidRequest (msg : String)
  | internalError (msg : String)
  | upstreamErr (msg : String)
deriving DecidableEq, Repr

/-- Observable pool / upstream interactions of one request, recorded in
program order. -/
inductive Effect where
  | poolGetOrCreate (service : String)
  | callToolUpstream (service tool : String)
  | getPromptUpstream (service prompt : String)
  | readResourceUpstream (service uri : String)
deriving DecidableEq, Repr

/-- Result of one handler invocation; `panicked` models a Rust panic
(`Option::unwrap` on `None`). -/
inductive HandlerResult (α : Type) where
  | ok (val : α)
  | err (e : McpError)
  | panicked

/-- The relay's environment: the RBAC decision (`policies.validate`
already applied to the caller's identity), the pool, and the upstream
capability surface.  These are external to the handler control flow that
the claims are about, so they are parameters of the model. -/
structure RelayWorld where
  validate : ResourceKind → Bool
  poolGetOrCreate : String → Except McpError Unit
  upstreamCallTool : String → String → Option Json → Except McpError Json
  upstreamGetPrompt : String → String → Option Json → Except McpError Json
  upstreamReadResource : String → String → Except McpError Json

/-- `Relay::call_tool`: RBAC check on the composed name, split on the
first `:` (failure is `invalid_request`), pool lookup, upstream call. -/
def callToolHandler (w : RelayWorld) (name : String) (args : Option Json) :
    HandlerResult Json × List Effect :=
  if w.validate (.tool name) then
    match splitOnce ':' name with
    | none => (.err (.invalidRequest "invalid tool name"), [])
    | some (service, tool) =>
      match w.poolGetOrCreate service with
      | .error _ =>
        (.err (.invalidRequest ("Service " ++ service ++ " not found")), [.poolGetOrCreate service])
      | .ok _ =>
        match w.upstreamCallTool service tool args with
        | .ok r => (.ok r, [.poolGetOrCreate service, .callToolUpstream service tool])
        | .error e => (.err e, [.poolGetOrCreate service, .callToolUpstream service tool])
  else (.err (.invalidRequest "not allowed"), [])

/-- `Relay::get_prompt`: RBAC check, then `split_once(':').unwrap()` —
the unwrap panics when the name has no colon. -/
def getPromptHandler (w : RelayWorld) (name : String) (args : Option Json) :
    HandlerResult Json × List Effect :=
  if w.validate (.prompt name) then
    match splitOnce ':' name with
    | none => (.panicked, [])
    | some (service, prompt) =>
      match w.poolGetOrCreate service with
      | .error _ =>
        (.err (.invalidRequest ("Service " ++ service ++ " not found")), [.poolGetOrCreate service])
      | .ok _ =>
        match w.upstreamGetPrompt service prompt args with
        | .ok r => (.ok r, [.poolGetOrCreate service, .getPromptUpstream service prompt])
        | .error e => (.err e, [.poolGetOrCreate service, .getPromptUpstream service prompt])
  else (.err (.invalidRequest "not allowed"), [])

/-- `Relay::read_resource`: RBAC check, then `split_once(':').unwrap()`
on the uri — the unwrap panics when the uri has no colon. -/
def readResourceHandler (w : RelayWorld) (uri : String) :
    HandlerResult Json × List Effect :=
  if w.validate (.res uri) then
    match splitOnce ':' uri with
    | none => (.panicked, [])
    | some (service, r) =>
      match w.poolGetOrCreate service with
      | .error _ =>
        (.err (.invalidRequest ("Service " ++ service ++ " not found")), [.poolGetOrCreate service])
      | .ok _ =>
        match w.upstreamReadResource service r with
        | .ok res => (.ok res, [.poolGetOrCreate service, .readResourceUpstream service r])
        | .error e => (.err e, [.poolGetOrCreate service, .readResourceUpstream service r])
  else (.err (.invalidRequest "not allowed"), [])

/-! ### Fan-out list handlers -/

/-- The fields of `rmcp::model::Tool` the relay rewrites or copies. -/
structure McpTool where
  name : String
  description : Option String
  inputSchema : Json

/-- The fields of `rmcp::model::Prompt` the relay rewrites or copies. -/
structure McpPrompt where
  name : String
  description : Option String
  arguments : Option Json

/-- A resource item; `list_resources` passes these through unchanged. -/
structure McpResource where
  uri : String
  name : String
deriving DecidableEq, Repr

/-- A resource template item; passed through unchanged. -/
structure McpResourceTemplate where
  uriTemplate : String
  name : String
deriving DecidableEq, Repr

/-- The four per-target sub-list results the fan-out consumes; each is
the outcome of the corresponding upstream `list_*` call. -/
structure SvcListResults where
  tools : Except McpError (List McpTool)
  prompts : Except McpError (List McpPrompt)
  resources : Except McpError (List McpResource)
  resourceTemplates : Except McpError (List McpResourceTemplate)

/-- Rewriting in `Relay::list_tools`: name becomes `target:inner`. -/
def prefixedTool (target : String) (t : McpTool) : McpTool :=
  { t with name := target ++ ":" ++ t.name }

/-- Rewriting in `Relay::list_prompts`: name becomes `target:inner`. -/
def prefixedPrompt (target : String) (p : McpPrompt) : McpPrompt :=
  { p with name := target ++ ":" ++ p.name }

/-- `itertools::partition_result` followed by dropping the errors: keep
the `Ok` payloads in order. -/
def okList {α : Type} : List (Except McpError α) → List α
  | [] => []
  | .ok x :: rest => x :: okList rest
  | .error _ :: rest => okList rest

/-- `Relay::list_tools` fan-out over the pooled connections: rewrite each
sub-result with the owning target's prefix, drop failed sub-targets,
concatenate. -/
def relayListTools (conns : List (String × SvcListResults)) : List McpTool :=
  (okList (conns.map (fun c => c.2.tools.map (fun ts => ts.map (prefixedTool c.1))))).flatten

/-- `Relay::list_prompts` fan-out: rewrite names, drop failures,
concatenate. -/
def relayListPrompts (conns : List (String × SvcListResults)) : List McpPrompt :=
  (okList (conns.map (fun c => c.2.prompts.map (fun ps => ps.map (prefixedPrompt c.1))))).flatten

/-- `Relay::list_resources` fan-out: the sub-results are concatenated
without any rewriting. -/
def relayListResources (conns : List (String × SvcListResults)) : List McpResource :=
  (okList (conns.map (fun c => c.2.resources))).flatten

/-- `Relay::list_resource_templates` fan-out: concatenated without any
rewriting. -/
def relayListResourceTemplates (conns : List (String × SvcListResults)) :
    List McpResourceTemplate :=
  (okList (conns.map (fun c => c.2.resourceTemplates))).flatten

/-! ## A2A relay (`src/src/a2a/relay.rs`) -/

/-- One parsed SSE frame as produced by `eventsource_stream`. -/
structure SseFrame where
  event : String
  data : String
deriving DecidableEq, Repr

/-- Capacity of the bounded channel created in `Relay::proxy_request`
(`tokio::sync::mpsc::channel(64)`). -/
def a2aChannelCapacity : Nat := 64

/-- Shape of the downstream answer of `Relay::proxy_request`: either one
decoded JSON-RPC message or a stream fed through a bounded channel of the
given capacity. -/
inductive A2aShape where
  | single (msg : Json)
  | streaming (capacity : Nat) (msgs : List Json)

/-- The relevant observable content of the upstream POST response:
`contentTypeEssence` is the `type/subtype` part of the `Content-Type`
header after mime parsing (`none` when the header is absent or does not
parse), `jsonBody` the decoded body for the JSON case, and `frames` the
parsed SSE frames for the stream case. -/
structure UpstreamHttpResponse where
  contentTypeEssence : Option String
  jsonBody : Json
  frames : List SseFrame

/-- Classification step of `Relay::proxy_request`: match on the
content-type essence; `application/json` gives one decoded message,
`text/event-stream` spawns a reader that forwards exactly the frames
whose event name is `message` (decoded from their `data` field by
`decodeMsg`, which stands for `serde_json::from_str`; the Rust code
panics on decode failure, a case no claim covers), anything else —
including an absent or unparsable header — is an error. -/
def proxyRequestClassify (decodeMsg : String → Json) (resp : UpstreamHttpResponse) :
    Except String A2aShape :=
  match resp.contentTypeEssence with
  | some ct =>
    if ct = "application/json" then .ok (.single resp.jsonBody)
    else if ct = "text/event-stream" then
      .ok (.streaming a2aChannelCapacity
        ((resp.frames.filter (fun f => f.event = "message")).map (fun f => decodeMsg f.data)))
    else .error "expected JSON or event stream"
  | none => .error "expected JSON or event stream"

/-! ### A2A connection pool -/

/-- The `a2a_sse` target spec fields used by `ConnectionPool::connect`. -/
structure A2aSpec where
  host : String
  port : Nat
  path : String
  headers : List (String × String)
  hasBackendAuth : Bool
deriving DecidableEq, Repr

/-- Target spec variants (`outbound::TargetSpec`); `connect` supports
only the A2A variant and bails out on the rest. -/
inductive PoolTargetSpec where
  | a2a (s : A2aSpec)
  | otherVariant
deriving DecidableEq, Repr

/-- A configured target (`outbound::Target`). -/
structure PoolTarget where
  name : String
  spec : PoolTargetSpec
deriving DecidableEq, Repr

/-- The constructed upstream client (`a2a::Client`): base url plus the
default headers baked into the `reqwest` client. -/
structure A2aClient where
  url : String
  headers : List (String × String)
deriving DecidableEq, Repr

/-- `UpstreamTarget` of the A2A relay (single variant). -/
inductive A2aUpstream where
  | a2a (c : A2aClient)
deriving DecidableEq, Repr

/-- Pool state: the `by_name` map, keyed by target name. -/
abbrev A2aPoolState := List (String × A2aUpstream)

/-- The `XdsStore` content the pool reads: target configurations by name
(the cancellation token is irrelevant here and omitted). -/
structure A2aStore where
  targets : List (String × PoolTarget)

/-- External collaborators of `connect`: resolution of the backend-auth
bearer token for the current identity (`BackendAuthConfig::build` +
`get_token`), and validity of header names / values
(`HeaderName::from_bytes`, `HeaderValue::from_str`). -/
structure A2aPoolEnv where
  authToken : Except String String
  headerNameOk : String → Bool
  headerValueOk : String → Bool

/-- Scheme selection in `connect`: port 443 means https. -/
def a2aScheme (port : Nat) : String := if port = 443 then "https" else "http"

/-- `get_default_headers`: with backend auth, resolve the token and set
the `authorization` header; otherwise an empty header map. -/
def a2aDefaultHeaders (env : A2aPoolEnv) (hasAuth : Bool) : Except String (List (String × String)) :=
  if hasAuth then
    match env.authToken with
    | .error e => .error e
    | .ok tok =>
      if env.headerValueOk tok then .ok [("authorization", tok)]
      else .error "invalid header value"
  else .ok []

/-- Insert-or-replace for header maps (same shape as `upsertField`). -/
def upsertHeader (k v : String) : List (String × String) → List (String × String)
  | [] => [(k, v)]
  | (k0, v0) :: rest => if k0 = k then (k, v) :: rest else (k0, v0) :: upsertHeader k v rest

/-- The header loop of `connect`: validate and insert each configured
header; a bad name or value aborts construction with an error. -/
def a2aInsertHeaders (env : A2aPoolEnv) (acc : List (String × String)) :
    List (String × String) → Except String (List (String × String))
  | [] => .ok acc
  | (k, v) :: rest =>
    if env.headerNameOk k then
      if env.headerValueOk v then a2aInsertHeaders env (upsertHeader k v acc) rest
      else .error "invalid header value"
    else .error "invalid header name"

/-- `ConnectionPool::connect`: no-op when the name is already present;
otherwise construct the client for an A2A spec (inserting only on
success) and fail for every other spec variant. -/
def a2aConnect (env : A2aPoolEnv) (st : A2aPoolState) (target : PoolTarget) :
    Except String A2aPoolState :=
  if (st.lookup target.name).isSome then .ok st
  else
    match target.spec with
    | .a2a s =>
      match a2aDefaultHeaders env s.hasBackendAuth with
      | .error e => .error e
      | .ok base =>
        match a2aInsertHeaders env base s.headers with
        | .error e => .error e
        | .ok hs =>
          let url := a2aScheme s.port ++ "://" ++ s.host ++ ":" ++ toString s.port ++ s.path
          .ok (st ++ [(target.name, .a2a { url := url, headers := hs })])
    | .otherVariant => .error "only A2A target is supported"

/-- `ConnectionPool::get_or_create`: return the cached upstream when the
name is in the map; otherwise read the target configuration (error when
absent, nothing inserted), connect (errors propagate, nothing inserted),
and finally return the freshly inserted entry.  The function returns the
call result together with the pool state after the call. -/
def a2aGetOrCreate (env : A2aPoolEnv) (store : A2aStore) (st : A2aPoolState) (name : String) :
    Except String A2aUpstream × A2aPoolState :=
  let afterConnect : Except String A2aPoolState :=
    if (st.lookup name).isSome then .ok st
    else
      match store.targets.lookup name with
      | some target => a2aConnect env st target
      | none => .error ("Target configuration not found for " ++ name)
  match afterConnect with
  | .error e => (.error e, st)
  | .ok st1 =>
    match st1.lookup name with
    | some t => (.ok t, st1)
    | none => (.error ("Service " ++ name ++ " not found"), st1)

/-! ## OpenAPI 3.0 synthesizer
(`src/crates/agentgateway/src/mcp/openapi/mod.rs`, function
`parse_openapi_v3_0_schema` and helpers) -/

/-- `openapiv3::ReferenceOr`. -/
inductive RefOr (α : Type) where
  | ref (r : String)
  | item (a : α)
deriving DecidableEq

/-- The failure modes of the synthesizer (`ParseError`), restricted to
the variants the embedded code constructs. -/
inductive ParseError where
  | missingSchema
  | missingComponents
  | invalidReference (s : String)
  | missingReference (s : String)
  | unsupportedReference (s : String)
  | informationRequired (s : String)
deriving DecidableEq, Repr

/-- A media type: its optional schema (schemas are carried in their JSON
serialization, matching how the synthesizer only ever serializes them). -/
structure MediaTypeV3 where
  schema : Option (RefOr Json)

/-- `openapiv3::RequestBody`: content map plus the `required` flag. -/
structure RequestBodyV3 where
  content : List (String × MediaTypeV3)
  required : Bool

/-- Parameter location (`openapiv3::Parameter` variants). -/
inductive ParamLocation where
  | query
  | header
  | path
  | cookie
deriving DecidableEq, Repr

/-- `openapiv3::ParameterSchemaOrContent`. -/
inductive ParamFormat where
  | schemaFmt (s : RefOr Json)
  | contentFmt

/-- The parameter data the synthesizer reads
(`Parameter::parameter_data_ref` plus the variant tag). -/
structure ParameterV3 where
  name : String
  location : ParamLocation
  required : Bool
  description : Option String
  format : ParamFormat

/-- `openapiv3::Components`, restricted to the three collections the
resolvers consult. -/
structure ComponentsV3 where
  schemas : List (String × RefOr Json)
  parameters : List (String × RefOr ParameterV3)
  requestBodies : List (String × RefOr RequestBodyV3)

/-- One operation of a path item. -/
structure OperationV3 where
  operationId : Option String
  summary : Option String
  description : Option String
  parameters : List (RefOr ParameterV3)
  requestBody : Option (RefOr RequestBodyV3)

/-- A path item: its present operations in the fixed iteration order of
`openapiv3::PathItem::iter` (method name, operation). -/
structure PathItemV3 where
  ops : List (String × OperationV3)

/-- An OpenAPI 3.0 document: paths in declaration order, components. -/
structure OpenApiDocV3 where
  paths : List (String × RefOr PathItemV3)
  components : Option ComponentsV3

/-- Fuel bound for reference chasing.  A `resolve_*_v3_0` chain that
terminates in Rust visits pairwise distinct components (revisiting one
would loop forever), so the number of components bounds every
terminating chain; on cyclic documents the Rust code recurses without
bound and the model reports an error instead. -/
def OpenApiDocV3.refFuel (doc : OpenApiDocV3) : Nat :=
  match doc.components with
  | none => 1
  | some c => c.schemas.length + c.parameters.length + c.requestBodies.length + 1

/-- `resolve_schema_v3_0`: chase `#/components/schemas/` references. -/
def resolveSchemaV30 (doc : OpenApiDocV3) : Nat → RefOr Json → Except ParseError Json
  | _, .item s => .ok s
  | 0, .ref r => .error (.invalidReference r)
  | fuel + 1, .ref r =>
    match r.dropPrefix? "#/components/schemas/" with
    | none => .error (.invalidReference r)
    | some key =>
      match doc.components with
      | none => .error .missingComponents
      | some comps =>
        match comps.schemas.lookup key.toString with
        | none => .error (.missingReference key.toString)
        | some next => resolveSchemaV30 doc fuel next

/-- `resolve_parameter_v3_0`: chase `#/components/parameters/`
references (a prefix mismatch is reported as `MissingReference`, exactly
as in the source). -/
def resolveParameterV30 (doc : OpenApiDocV3) : Nat → RefOr ParameterV3 → Except ParseError ParameterV3
  | _, .item p => .ok p
  | 0, .ref r => .error (.missingReference r)
  | fuel + 1, .ref r =>
    match r.dropPrefix? "#/components/parameters/" with
    | none => .error (.missingReference r)
    | some key =>
      match doc.components with
      | none => .error .missingComponents
      | some comps =>
        match comps.parameters.lookup key.toString with
        | none => .error (.missingReference key.toString)
        | some next => resolveParameterV30 doc fuel next

/-- `resolve_request_body_v3_0`: chase `#/components/requestBodies/`
references. -/
def resolveRequestBodyV30 (doc : OpenApiDocV3) : Nat → RefOr RequestBodyV3 → Except ParseError RequestBodyV3
  | _, .item b => .ok b
  | 0, .ref r => .error (.missingReference r)
  | fuel + 1, .ref r =>
    match r.dropPrefix? "#/components/requestBodies/" with
    | none => .error (.missingReference r)
    | some key =>
      match doc.components with
      | none => .error .missingComponents
      | some comps =>
        match comps.requestBodies.lookup key.toString with
        | none => .error (.missingReference key.toString)
        | some next => resolveRequestBodyV30 doc fuel next

/-- How `serde` views a JSON value as `ReferenceOr<Schema>`: an object
with a `$ref` string is a reference, everything else an inline schema. -/
def refOrOfJson (j : Json) : RefOr Json :=
  match j with
  | .obj fields =>
    match fields.lookup "$ref" with
    | some (.str r) => .ref r
    | _ => .item j
  | _ => .item j

mutual
/-- Executable size of a JSON value (the derived `sizeOf` of the nested
inductive has no executable code). -/
def jsonSize : Json → Nat
  | .null => 1
  | .bool _ => 1
  | .num _ => 1
  | .str _ => 1
  | .arr elems => 1 + jsonSizeList elems
  | .obj fields => 1 + jsonSizeFields fields

/-- Size of a JSON array payload. -/
def jsonSizeList : List Json → Nat
  | [] => 1
  | x :: xs => 1 + jsonSize x + jsonSizeList xs

/-- Size of a JSON object payload. -/
def jsonSizeFields : List (String × Json) → Nat
  | [] => 1
  | (_, v) :: xs => 1 + jsonSize v + jsonSizeFields xs
end

/-- Size of a schema reference-or-value. -/
def refOrJsonSize : RefOr Json → Nat
  | .ref _ => 1
  | .item j => 1 + jsonSize j

/-- Total size of the schema components of a document. -/
def schemasSizeV30 (doc : OpenApiDocV3) : Nat :=
  match doc.components with
  | none => 0
  | some comps => (comps.schemas.map (fun kv => refOrJsonSize kv.2)).sum

/-- Fuel for the nested walk of `resolve_nested_schema_v3_0`.  One unit
is consumed per recursion level; on inputs where the Rust code
terminates the recursion depth is bounded by the size of the root schema
plus the total size of the schema components (between two reference
jumps the walk descends structurally, and a terminating run can only
jump to pairwise distinct components on one descent path), so this bound
is never exhausted there.  On cyclic documents the Rust code recurses
without bound and the model reports an error instead. -/
def nestedFuelV30 (doc : OpenApiDocV3) (sref : RefOr Json) : Nat :=
  schemasSizeV30 doc + refOrJsonSize sref + 1

mutual
/-- `resolve_nested_schema_v3_0`: resolve the base schema reference with
`resolve_schema_v3_0`, then rebuild the result with every nested
reference inlined.  The walk descends into object `properties`, array
`items`, the branches of `oneOf`/`allOf`/`anyOf`, and the body of `not`,
mirroring the source's case analysis on the schema kind (the serialized
form keys those cases by the corresponding JSON field). -/
def resolveNestedV30 (doc : OpenApiDocV3) (fuel : Nat) (sref : RefOr Json) :
    Except ParseError Json :=
  match fuel with
  | 0 => .error (.invalidReference "nested resolution fuel exhausted")
  | fuel1 + 1 =>
    match resolveSchemaV30 doc doc.refFuel sref with
    | .error e => .error e
    | .ok base =>
      match base with
      | .obj fields =>
        match resolveNestedFieldsV30 doc fuel1 fields with
        | .error e => .error e
        | .ok fields1 => .ok (.obj fields1)
      | other => .ok other
termination_by (fuel, 0)

/-- Walk the fields of a serialized schema object, resolving the nested
positions and leaving every other field unchanged. -/
def resolveNestedFieldsV30 (doc : OpenApiDocV3) (fuel : Nat) :
    List (String × Json) → Except ParseError (List (String × Json))
  | [] => .ok []
  | (k, v) :: rest =>
    let v1 : Except ParseError Json :=
      if k = "properties" then
        match v with
        | .obj props =>
          match resolveNestedPropsV30 doc fuel props with
          | .error e => .error e
          | .ok props1 => .ok (.obj props1)
        | other => .ok other
      else if k = "items" ∨ k = "not" then resolveNestedV30 doc fuel (refOrOfJson v)
      else if k = "oneOf" ∨ k = "allOf" ∨ k = "anyOf" then
        match v with
        | .arr elems =>
          match resolveNestedBranchesV30 doc fuel elems with
          | .error e => .error e
          | .ok elems1 => .ok (.arr elems1)
        | other => .ok other
      else .ok v
    match v1 with
    | .error e => .error e
    | .ok v2 =>
      match resolveNestedFieldsV30 doc fuel rest with
      | .error e => .error e
      | .ok rest1 => .ok ((k, v2) :: rest1)
termination_by fields => (fuel, 1 + sizeOf fields)

/-- Resolve every property schema of an object schema. -/
def resolveNestedPropsV30 (doc : OpenApiDocV3) (fuel : Nat) :
    List (String × Json) → Except ParseError (List (String × Json))
  | [] => .ok []
  | (pk, pv) :: rest =>
    match resolveNestedV30 doc fuel (refOrOfJson pv) with
    | .error e => .error e
    | .ok pv1 =>
      match resolveNestedPropsV30 doc fuel rest with
      | .error e => .error e
      | .ok rest1 => .ok ((pk, pv1) :: rest1)
termination_by props => (fuel, 1 + sizeOf props)

/-- Resolve every branch of a `oneOf` / `allOf` / `anyOf` list. -/
def resolveNestedBranchesV30 (doc : OpenApiDocV3) (fuel : Nat) :
    List Json → Except ParseError (List Json)
  | [] => .ok []
  | e0 :: rest =>
    match resolveNestedV30 doc fuel (refOrOfJson e0) with
    | .error e => .error e
    | .ok e1 =>
      match resolveNestedBranchesV30 doc fuel rest with
      | .error e => .error e
      | .ok rest1 => .ok (e1 :: rest1)
termination_by elems => (fuel, 1 + sizeOf elems)
end

/-- The `ParameterType` grouping key of the synthesizer (header, query,
path; cookie parameters are rejected before grouping). -/
inductive ParameterType where
  | header
  | query
  | path
deriving DecidableEq, Repr

/-- `ParameterType::to_string`. -/
def ParameterType.toStr : ParameterType → String
  | .header => "header"
  | .query => "query"
  | .path => "path"

/-- One grouped entry: `(name, schema-as-object, required)` as produced
by `build_schema_property_v3_0`. -/
abbrev PropEntry := String × List (String × Json) × Bool

/-- The `param_schemas` map: association list keyed by `ParameterType`. -/
abbrev ParamGroups := List (ParameterType × List PropEntry)

/-- `build_schema_property_v3_0`: resolve the parameter's schema, demand
an object serialization, and copy the description in when present. -/
def buildSchemaPropertyV30 (doc : OpenApiDocV3) (p : ParameterV3) :
    Except ParseError PropEntry :=
  match p.format with
  | .contentFmt => .error (.unsupportedReference ("content is not supported for parameters: " ++ p.name))
  | .schemaFmt sref =>
    match resolveSchemaV30 doc doc.refFuel sref with
    | .error e => .error e
    | .ok j =>
      match j with
      | .obj fields =>
        let fields1 :=
          match p.description with
          | some d => upsertField "description" (.str d) fields
          | none => fields
        .ok (p.name, fields1, p.required)
      | _ => .error (.unsupportedReference ("parameter " ++ p.name ++ " is not an object"))

/-- The `HashMap::entry(..).or_insert_with(Vec::new).push(..)` step:
append the entry to the key's vector, creating the key on first use. -/
def pushGroup (k : ParameterType) (e : PropEntry) : ParamGroups → ParamGroups
  | [] => [(k, [e])]
  | (k0, es) :: rest =>
    if k0 = k then (k0, es ++ [e]) :: rest else (k0, es) :: pushGroup k e rest

/-- The match on the parameter variant in the grouping loop; cookie
parameters abort the whole synthesis. -/
def locToType : ParamLocation → Except ParseError ParameterType
  | .header => .ok .header
  | .query => .ok .query
  | .path => .ok .path
  | .cookie => .error (.unsupportedReference "parameter type COOKIE is not supported")

/-- The `try_for_each` grouping loop over an operation's parameters:
resolve, build the schema property, then group by location. -/
def buildGroupsV30 (doc : OpenApiDocV3) : List (RefOr ParameterV3) → ParamGroups → Except ParseError ParamGroups
  | [], acc => .ok acc
  | pref :: rest, acc =>
    match resolveParameterV30 doc doc.refFuel pref with
    | .error e => .error e
    | .ok item =>
      match buildSchemaPropertyV30 doc item with
      | .error e => .error e
      | .ok entry =>
        match locToType item.location with
        | .error e => .error e
        | .ok k => buildGroupsV30 doc rest (pushGroup k entry acc)

/-- Required names of one group, in parameter order (the `flat_map` over
the group's entries). -/
def groupRequiredNames (es : List PropEntry) : List String :=
  es.filterMap (fun e => if e.2.2 then some e.1 else none)

/-- Serialization of one sub-schema (`json!(sub_schema)` of the
`JsonSchema` struct): required names, properties collected into a JSON
object, fixed type `object`. -/
def subSchemaJson (es : List PropEntry) : Json :=
  .obj
    [("required", .arr ((groupRequiredNames es).map Json.str)),
     ("properties", .obj (insertAllFields [] (es.map (fun e => (e.1, Json.obj e.2.1))))),
     ("type", .str "object")]

/-- Iteration over the `param_schemas` `HashMap`, parameterized by the
iteration order `ord` the map happens to produce: the groups present are
listed following `ord`.  Rust's `HashMap` fixes no order, so `ord` is a
model parameter; a faithful order enumerates exactly the present keys,
captured by `PriorityOrder` below. -/
def iterGroups (ord : List ParameterType) (groups : ParamGroups) :
    List (ParameterType × List PropEntry) :=
  ord.filterMap (fun k => (groups.lookup k).map (fun es => (k, es)))

/-- A valid model of one `HashMap` iteration: some permutation of all
three possible keys, restricted by `iterGroups` to the present ones. -/
def PriorityOrder (ord : List ParameterType) : Prop :=
  ord.Perm [ParameterType.header, ParameterType.query, ParameterType.path]

instance (ord : List ParameterType) : Decidable (PriorityOrder ord) := by
  unfold PriorityOrder; infer_instance

/-- The top-level JSON schema under construction (`JsonSchema` struct of
the synthesizer; its serialization is what lands in
`Tool::input_schema`). -/
structure JsonSchemaV3 where
  required : List String
  properties : List (String × Json)

/-- A synthesized tool descriptor (`rmcp::model::Tool` as the 3.0
synthesizer fills it; `annotations` is always `None` and the input
schema always reports `type: object`). -/
structure ToolDefV30 where
  name : String
  description : Option String
  inputSchema : JsonSchemaV3

/-- The paired upstream call template (`UpstreamOpenAPICall`). -/
structure UpstreamCall where
  method : String
  path : String
deriving DecidableEq, Repr

/-- Body handling of `parse_openapi_v3_0_schema`: resolve the request
body, pick the `application/json` media type (`None` skips the body),
resolve its schema fully, and report `(name, schema, required)`. -/
def bodyInfoV30 (doc : OpenApiDocV3) (op : OperationV3) :
    Except ParseError (Option (String × Json × Bool)) :=
  match op.requestBody with
  | none => .ok none
  | some bref =>
    match resolveRequestBodyV30 doc doc.refFuel bref with
    | .error e => .error e
    | .ok body =>
      match body.content.lookup "application/json" with
      | none => .ok none
      | some mt =>
        match mt.schema with
        | none => .error (.missingReference "application/json")
        | some sref =>
          match resolveNestedV30 doc (nestedFuelV30 doc sref) sref with
          | .error e => .error e
          | .ok schemaJson => .ok (some ("body", schemaJson, body.required))

/-- One loop iteration inserting a group into the final schema: push the
group name onto `required` when the group has required fields, insert
the serialized sub-schema under the group name. -/
def applyGroup (acc : JsonSchemaV3) (kg : ParameterType × List PropEntry) : JsonSchemaV3 :=
  { required :=
      acc.required ++ (if (groupRequiredNames kg.2).isEmpty then [] else [kg.1.toStr]),
    properties := upsertField kg.1.toStr (subSchemaJson kg.2) acc.properties }

/-- The state of the final schema after the body handling and before
the parameter-group loop: the body data is pushed twice into `required`
and inserted twice into `properties` (once inside the media-type match,
once in the following `if let`), exactly as in the source. -/
def bodySeedSchema (bodyRes : Option (String × Json × Bool)) : JsonSchemaV3 :=
  let requiredA : List String :=
    match bodyRes with
    | some (bn, _, true) => [bn]
    | _ => []
  let propsA : List (String × Json) :=
    match bodyRes with
    | some (bn, bs, _) => upsertField bn bs []
    | none => []
  { required :=
      requiredA ++
        (match bodyRes with
          | some (bn, _, true) => [bn]
          | _ => []),
    properties :=
      match bodyRes with
      | some (bn, bs, _) => upsertField bn bs propsA
      | none => propsA }

/-- The description fallback chain
(`description ?? summary ?? operationId`). -/
def opDescriptionV30 (op : OperationV3) (name : String) : String :=
  match op.description with
  | some d => d
  | none =>
    match op.summary with
    | some s => s
    | none => name

/-- Per-operation synthesis of `parse_openapi_v3_0_schema`, parameterized
by the iteration order of the `param_schemas` map. -/
def synthOpV30 (doc : OpenApiDocV3) (ord : List ParameterType)
    (path method : String) (op : OperationV3) :
    Except ParseError (ToolDefV30 × UpstreamCall) :=
  match op.operationId with
  | none => .error (.informationRequired ("operation_id is required for " ++ path))
  | some name =>
    match bodyInfoV30 doc op with
    | .error e => .error e
    | .ok bodyRes =>
      match buildGroupsV30 doc op.parameters [] with
      | .error e => .error e
      | .ok groups =>
        let finalSchema := (iterGroups ord groups).foldl applyGroup (bodySeedSchema bodyRes)
        let tool : ToolDefV30 :=
          { name := name,
            description := some (opDescriptionV30 op name),
            inputSchema := finalSchema }
        .ok (tool, { method := method, path := path })

/-- Synthesis of the operations of one path item, in iteration order. -/
def synthPathOpsV30 (doc : OpenApiDocV3) (ordAt : String → String → List ParameterType)
    (path : String) : List (String × OperationV3) → Except ParseError (List (ToolDefV30 × UpstreamCall))
  | [] => .ok []
  | (method, op) :: rest =>
    match synthOpV30 doc (ordAt path method) path method op with
    | .error e => .error e
    | .ok tu =>
      match synthPathOpsV30 doc ordAt path rest with
      | .error e => .error e
      | .ok rest1 => .ok (tu :: rest1)

/-- Synthesis over the document's paths; a referenced (non-inline) path
item fails with `UnsupportedReference` (`as_item` returning `None`). -/
def synthPathsV30 (doc : OpenApiDocV3) (ordAt : String → String → List ParameterType) :
    List (String × RefOr PathItemV3) → Except ParseError (List (List (ToolDefV30 × UpstreamCall)))
  | [] => .ok []
  | (path, pref) :: rest =>
    match pref with
    | .ref _ => .error (.unsupportedReference path)
    | .item pitem =>
      match synthPathOpsV30 doc ordAt path pitem.ops with
      | .error e => .error e
      | .ok tus =>
        match synthPathsV30 doc ordAt rest with
        | .error e => .error e
        | .ok rest1 => .ok (tus :: rest1)

/-- `parse_openapi_v3_0_schema`: synthesize every path, then flatten in
document order.  `ordAt` supplies, per operation, the iteration order of
that operation's `param_schemas` hash map. -/
def parseOpenapiV30 (doc : OpenApiDocV3) (ordAt : String → String → List ParameterType) :
    Except ParseError (List (ToolDefV30 × UpstreamCall)) :=
  match synthPathsV30 doc ordAt doc.paths with
  | .error e => .error e
  | .ok ls => .ok ls.flatten

/-! ## OpenAPI 3.1 path
(`src/crates/agentgateway/src/mcp/openapi/v3_1.rs` and
`compatibility.rs`) -/

/-- Lookup of a string field (`get(..).and_then(Value::as_str)`). -/
def Json.getStr (j : Json) (k : String) : Option String :=
  match j.lookup k with
  | some (.str s) => some s
  | _ => none

/-- Lookup of a boolean field (`get(..).and_then(Value::as_bool)`). -/
def Json.getBool (j : Json) (k : String) : Option Bool :=
  match j.lookup k with
  | some (.bool b) => some b
  | _ => none

theorem sizeOf_lookup_lt {k : String} :
    ∀ {l : List (String × Json)} {v : Json}, l.lookup k = some v → sizeOf v < sizeOf l := by
  intro l
  induction l with
  | nil => intro v h; simp [List.lookup] at h
  | cons hd tl ih =>
    intro v h
    obtain ⟨k0, v0⟩ := hd
    rw [List.lookup] at h
    by_cases hk : k = k0
    · simp [hk] at h
      subst h
      simp
      omega
    · have hbeq : (k == k0) = false := by
        simp [hk]
      rw [hbeq] at h
      have := ih h
      simp
      omega

theorem sizeOf_json_lookup_lt {k : String} {j v : Json} (h : j.lookup k = some v) :
    sizeOf v < sizeOf j := by
  cases j with
  | obj fields =>
    have := @sizeOf_lookup_lt k fields v h
    simp
    omega
  | null => simp [Json.lookup] at h
  | bool b => simp [Json.lookup] at h
  | num n => simp [Json.lookup] at h
  | str s => simp [Json.lookup] at h
  | arr elems => simp [Json.lookup] at h

/-- The type-array loop of `normalize_schema_v3_1`: scan the array,
remember whether `"null"` occurs, and let every non-null string entry
overwrite `main_type` (so the last one wins); non-string entries are
skipped. -/
def typeArrayScan (elems : List Json) : Option String × Bool :=
  elems.foldl
    (fun acc t =>
      match t with
      | .str s => if s = "null" then (acc.1, true) else (some s, acc.2)
      | _ => acc)
    (none, false)

/-- `normalize_schema_v3_1`: clone the schema; rewrite a `type` array
into a single `type` (plus `nullable: true` when `"null"` is present, or
`type: "null"` when only null occurs); re-copy `format`, `enum`,
`minimum`, `maximum` from the original (no-ops on the clone); recurse
into `items`.  The Rust function returns `Result` but never constructs
an error, so the model is total. -/
def normalizeSchemaV31 (s : Json) : Json :=
  let n1 : Json :=
    match s.lookup "type" with
    | some (.arr elems) =>
      match typeArrayScan elems with
      | (some mt, isNull) =>
        let a := s.setKey "type" (.str mt)
        if isNull then a.setKey "nullable" (.bool true) else a
      | (none, true) => s.setKey "type" (.str "null")
      | (none, false) => s
    | _ => s
  let n2 : Json := match s.lookup "format" with | some f => n1.setKey "format" f | none => n1
  let n3 : Json := match s.lookup "enum" with | some v => n2.setKey "enum" v | none => n2
  let n4 : Json := match s.lookup "minimum" with | some v => n3.setKey "minimum" v | none => n3
  let n5 : Json := match s.lookup "maximum" with | some v => n4.setKey "maximum" v | none => n4
  match hit : s.lookup "items" with
  | some items => n5.setKey "items" (normalizeSchemaV31 items)
  | none => n5
termination_by sizeOf s
decreasing_by
  exact sizeOf_json_lookup_lt hit

/-- `normalize_type_array` of `compatibility.rs`: split off `"null"`,
report `(first non-null type, null present)`, with `(None, true)` when
only null occurs and `(None, false)` on an empty array. -/
def normalizeTypeArray (types : List String) : Option String × Bool :=
  if types.isEmpty then (none, false)
  else
    let nonNull := types.filter (fun t => t ≠ "null")
    let hasNull := types.any (fun t => t = "null")
    match nonNull with
    | [] => (none, true)
    | t0 :: _ => (some t0, hasNull)

/-- `process_parameter_v3_1`: the source first serializes the typed
parameter to JSON and then reads fields off that value, so the model
takes the serialized parameter directly.  Returns
`(name, schema, required)`; the Rust function always returns `Ok(Some ..)`. -/
def processParameterV31 (paramJson : Json) : String × Json × Bool :=
  let name := (paramJson.getStr "name").getD "unknown_param"
  let required := (paramJson.getBool "required").getD false
  let description := paramJson.getStr "description"
  let base : Json :=
    match paramJson.lookup "schema" with
    | some s => normalizeSchemaV31 s
    | none => .obj [("type", .str "string")]
  let withDesc : Json :=
    match description with
    | some d => base.setKey "description" (.str d)
    | none => base
  let location := (paramJson.getStr "in").getD "unknown"
  let final : Json :=
    match withDesc.lookup "description" with
    | some existing =>
      let existingStr := match existing with | .str s => s | _ => ""
      withDesc.setKey "description" (.str (existingStr ++ " (in: " ++ location ++ ")"))
    | none => withDesc.setKey "description" (.str ("Parameter in: " ++ location))
  (name, final, required)

/-- `process_schema_v3_1`: an object schema yields its normalized
properties and its `required` strings; any other schema becomes a single
property named `body`. -/
def processSchemaV31 (schema : Json) : List (String × Json) × List String :=
  let isObjectType : Bool :=
    match schema.getStr "type" with
    | some t => t = "object"
    | none => false
  if isObjectType then
    let props :=
      match schema.lookup "properties" with
      | some (.obj propsObj) =>
        insertAllFields [] (propsObj.map (fun kv => (kv.1, normalizeSchemaV31 kv.2)))
      | _ => []
    let required :=
      match schema.lookup "required" with
      | some (.arr reqs) =>
        reqs.filterMap (fun r => match r with | .str s => some s | _ => none)
      | _ => []
    (props, required)
  else ([("body", normalizeSchemaV31 schema)], [])

/-- First content entry carrying a schema (the fallback loop of
`process_request_body_v3_1`). -/
def firstContentSchema : List (String × Json) → Option Json
  | [] => none
  | (_, cd) :: rest =>
    match cd.lookup "schema" with
    | some s => some s
    | none => firstContentSchema rest

/-- `process_request_body_v3_1`: prefer the `application/json` content
schema; otherwise fall back to the first content type that has a schema;
otherwise report nothing. -/
def processRequestBodyV31 (rb : Json) : Option (List (String × Json) × List String) :=
  match rb.lookup "content" with
  | some content =>
    let viaJson : Option Json :=
      match content.lookup "application/json" with
      | some jc => jc.lookup "schema"
      | none => none
    match viaJson with
    | some schema => some (processSchemaV31 schema)
    | none =>
      match content with
      | .obj contentObj =>
        match firstContentSchema contentObj with
        | some schema => some (processSchemaV31 schema)
        | none => none
      | _ => none
  | none => none

/-- An OpenAPI 3.1 operation as `create_tool_from_operation` consumes
it: parameters are carried in their serialized form (the source
serializes them first thing), the request body likewise. -/
structure OperationV31 where
  operationId : Option String
  summary : Option String
  description : Option String
  parameters : Option (List Json)
  requestBody : Option Json

/-- A tool synthesized by the 3.1 path (`input_schema` is the JSON
object built by `create_tool_from_operation`). -/
structure ToolV31 where
  name : String
  description : String
  inputSchema : Json

/-- `OpenAPI31Specification::create_tool_from_operation`: description
from summary, then description, then `"METHOD path"`; all parameters are
inserted as top-level properties under their own names; request-body
properties are merged into the same top-level map; `required` collects
required parameter names and then the body's required names (deduplicated
against the list built so far). -/
def createToolFromOperationV31 (operationId method path : String) (op : OperationV31) :
    ToolV31 × UpstreamCall :=
  let description :=
    match op.summary with
    | some s => s
    | none =>
      match op.description with
      | some d => d
      | none => method ++ " " ++ path
  let paramStep : List (String × Json) × List String :=
    match op.parameters with
    | some params =>
      params.foldl
        (fun acc p =>
          let r := processParameterV31 p
          let required1 := if r.2.2 then acc.2 ++ [r.1] else acc.2
          (upsertField r.1 r.2.1 acc.1, required1))
        ([], [])
    | none => ([], [])
  let bodyStep : List (String × Json) × List String :=
    match op.requestBody with
    | some rb =>
      match processRequestBodyV31 rb with
      | some (bodyProps, bodyRequired) =>
        (insertAllFields paramStep.1 bodyProps,
         bodyRequired.foldl (fun acc r => if acc.contains r then acc else acc ++ [r]) paramStep.2)
      | none => paramStep
    | none => paramStep
  let inputSchema : Json :=
    .obj
      [("type", .str "object"),
       ("properties", .obj bodyStep.1),
       ("required", .arr (bodyStep.2.map Json.str))]
  ({ name := operationId, description := description, inputSchema := inputSchema },
   { method := method, path := path })

/-- A 3.1 path item: the five operation slots
`OpenAPI31Specification::parse_schema` visits, in its visit order. -/
structure PathItemV31 where
  get : Option OperationV31
  post : Option OperationV31
  put : Option OperationV31
  delete : Option OperationV31
  patch : Option OperationV31

/-- An OpenAPI 3.1 document (paths in declaration order). -/
structure OpenApiDocV31 where
  paths : List (String × PathItemV31)

/-- The method slots in the order `parse_schema` visits them. -/
def methodOpsV31 (item : PathItemV31) : List (String × Option OperationV31) :=
  [("GET", item.get), ("POST", item.post), ("PUT", item.put),
   ("DELETE", item.delete), ("PATCH", item.patch)]

/-- `OpenAPI31Specification::parse_schema`: for each path and each
present operation, synthesize a tool only when the operation has an
`operationId` — operations without one are silently skipped, no error is
raised.  (The `Result` return mirrors the source signature; the only
error source there, re-serialization, cannot fail.) -/
def parseSchemaV31 (doc : OpenApiDocV31) : Except ParseError (List (ToolV31 × UpstreamCall)) :=
  .ok
    ((doc.paths.map (fun pp =>
      (methodOpsV31 pp.2).filterMap (fun mo =>
        match mo.2 with
        | some op =>
          match op.operationId with
          | some oid => some (createToolFromOperationV31 oid mo.1 pp.1 op)
          | none => none
        | none => none))).flatten)

/-- Identifiers of the operations of a 3.1 document that do carry an
`operationId`, in visit order. -/
def opIdsV31 (doc : OpenApiDocV31) : List String :=
  (doc.paths.map (fun pp =>
    (methodOpsV31 pp.2).filterMap (fun mo =>
      match mo.2 with
      | some op => op.operationId
      | none => none))).flatten

/-! ## Claim theorems -/

/-- C1: for every inbound `call_tool`, `get_prompt`, or `read_resource`
request whose composed name is denied by the RBAC decision for the
caller's identity, the relay answers `invalid_request("not allowed")`
and performs no pool lookup and no upstream operation (the recorded
effect trace is empty). -/
theorem c1_rbac_denied_no_upstream (w : RelayWorld) (name uri : String)
    (targs pargs : Option Json) :
    (w.validate (.tool name) = false →
      callToolHandler w name targs = (.err (.invalidRequest "not allowed"), [])) ∧
    (w.validate (.prompt name) = false →
      getPromptHandler w name pargs = (.err (.invalidRequest "not allowed"), [])) ∧
    (w.validate (.res uri) = false →
      readResourceHandler w uri = (.err (.invalidRequest "not allowed"), [])) := by
  refine ⟨fun h => ?_, fun h => ?_, fun h => ?_⟩
  · simp [callToolHandler, h]
  · simp [getPromptHandler, h]
  · simp [readResourceHandler, h]

/-- A relay environment that denies every resource. -/
def denyAllWorld : RelayWorld :=
  { validate := fun _ => false,
    poolGetOrCreate := fun _ => .ok (),
    upstreamCallTool := fun _ _ _ => .ok .null,
    upstreamGetPrompt := fun _ _ _ => .ok .null,
    upstreamReadResource := fun _ _ => .ok .null }

/-- Witness for C1 at a concrete denied request. -/
theorem c1_rbac_denied_no_upstream_witness :
    denyAllWorld.validate (.tool "a:t1") = false ∧
    callToolHandler denyAllWorld "a:t1" none = (.err (.invalidRequest "not allowed"), []) ∧
    getPromptHandler denyAllWorld "a:p1" none = (.err (.invalidRequest "not allowed"), []) ∧
    readResourceHandler denyAllWorld "a:r1" = (.err (.invalidRequest "not allowed"), []) :=
  ⟨rfl,
   (c1_rbac_denied_no_upstream denyAllWorld "a:t1" "a:r1" none none).1 rfl,
   (c1_rbac_denied_no_upstream denyAllWorld "a:p1" "a:r1" none none).2.1 rfl,
   (c1_rbac_denied_no_upstream denyAllWorld "a:t1" "a:r1" none none).2.2 rfl⟩

/-- A relay environment that allows every resource (the pool and the
upstream answers are irrelevant for the inputs below, which fail before
reaching them). -/
def allowAllWorld : RelayWorld :=
  { validate := fun _ => true,
    poolGetOrCreate := fun _ => .ok (),
    upstreamCallTool := fun _ _ _ => .ok .null,
    upstreamGetPrompt := fun _ _ _ => .ok .null,
    upstreamReadResource := fun _ _ => .ok .null }

/-- C2, failing input: on a name without `:`, `call_tool` answers
`invalid_request("invalid tool name")`, but `get_prompt` and
`read_resource` hit `split_once(':').unwrap()` and panic instead of
returning an `invalid_request` error. -/
theorem c2_no_colon_panics :
    callToolHandler allowAllWorld "toolNoColon" none
        = (.err (.invalidRequest "invalid tool name"), []) ∧
    getPromptHandler allowAllWorld "promptNoColon" none = (.panicked, []) ∧
    readResourceHandler allowAllWorld "uriNoColon" = (.panicked, []) :=
  ⟨rfl, rfl, rfl⟩

/-- C9: classification of the upstream POST response in
`Relay::proxy_request` — `application/json` yields a single decoded
message; `text/event-stream` yields a stream through the bounded
channel of capacity 64 that carries exactly the frames whose event name
is `message`; any other content type, and an absent or unparsable
`Content-Type` header, is an error. -/
theorem c9_proxy_content_type_classification
    (decodeMsg : String → Json) (resp : UpstreamHttpResponse) :
    a2aChannelCapacity = 64 ∧
    (resp.contentTypeEssence = some "application/json" →
      proxyRequestClassify decodeMsg resp = .ok (.single resp.jsonBody)) ∧
    (resp.contentTypeEssence = some "text/event-stream" →
      proxyRequestClassify decodeMsg resp =
        .ok (.streaming a2aChannelCapacity
          ((resp.frames.filter (fun f => f.event = "message")).map (fun f => decodeMsg f.data)))) ∧
    (resp.contentTypeEssence ≠ some "application/json" →
      resp.contentTypeEssence ≠ some "text/event-stream" →
      proxyRequestClassify decodeMsg resp = .error "expected JSON or event stream") := by
  refine ⟨rfl, fun h => ?_, fun h => ?_, fun h1 h2 => ?_⟩
  · simp [proxyRequestClassify, h]
  · simp [proxyRequestClassify, h]
  · match hc : resp.contentTypeEssence with
    | none => simp [proxyRequestClassify, hc]
    | some ct =>
      rw [hc] at h1 h2
      have hj : ct ≠ "application/json" := by intro e; exact h1 (by rw [e])
      have hs : ct ≠ "text/event-stream" := by intro e; exact h2 (by rw [e])
      simp [proxyRequestClassify, hc, hj, hs]

/-- Concrete upstream responses for the C9 witness. -/
def respJson : UpstreamHttpResponse :=
  { contentTypeEssence := some "application/json", jsonBody := .str "reply", frames := [] }

/-- A concrete SSE response with one `message` frame and one frame of
another event name. -/
def respSse : UpstreamHttpResponse :=
  { contentTypeEssence := some "text/event-stream", jsonBody := .null,
    frames := [{ event := "message", data := "m1" }, { event := "ping", data := "p1" }] }

/-- A concrete response without a `Content-Type` header. -/
def respNoCt : UpstreamHttpResponse :=
  { contentTypeEssence := none, jsonBody := .null, frames := [] }

/-- Witness for C9 at the three concrete responses. -/
theorem c9_proxy_content_type_classification_witness :
    proxyRequestClassify Json.str respJson = .ok (.single (.str "reply")) ∧
    proxyRequestClassify Json.str respSse
      = .ok (.streaming a2aChannelCapacity [.str "m1"]) ∧
    proxyRequestClassify Json.str respNoCt = .error "expected JSON or event stream" :=
  ⟨(c9_proxy_content_type_classification Json.str respJson).2.1 rfl,
   (c9_proxy_content_type_classification Json.str respSse).2.2.1 rfl,
   (c9_proxy_content_type_classification Json.str respNoCt).2.2.2
     (by intro h; cases h) (by intro h; cases h)⟩

/-- C10: `ConnectionPool::get_or_create` returns the cached upstream
when one exists (state unchanged); when no target configuration exists
it fails and inserts nothing; and when construction fails the error
propagates, nothing is cached, and a subsequent call runs the very same
construction attempt again. -/
theorem c10_get_or_create_cache_semantics (env : A2aPoolEnv) (store : A2aStore)
    (st : A2aPoolState) (name : String) (u : A2aUpstream) (tgt : PoolTarget) (e : String) :
    (st.lookup name = some u →
      a2aGetOrCreate env store st name = (.ok u, st)) ∧
    (st.lookup name = none → store.targets.lookup name = none →
      a2aGetOrCreate env store st name =
        (.error ("Target configuration not found for " ++ name), st)) ∧
    (st.lookup name = none → store.targets.lookup name = some tgt →
      a2aConnect env st tgt = .error e →
      a2aGetOrCreate env store st name = (.error e, st) ∧
      a2aGetOrCreate env store (a2aGetOrCreate env store st name).2 name
        = a2aGetOrCreate env store st name) := by
  refine ⟨fun h => ?_, fun h1 h2 => ?_, fun h1 h2 h3 => ?_⟩
  · simp [a2aGetOrCreate, h]
  · simp [a2aGetOrCreate, h1, h2]
  · have hres : a2aGetOrCreate env store st name = (.error e, st) := by
      simp [a2aGetOrCreate, h1, h2, h3]
    exact ⟨hres, by simp only [hres]⟩

/-- A pool environment with permissive header validation for the C10
witness. -/
def witnessEnv : A2aPoolEnv :=
  { authToken := .ok "tok", headerNameOk := fun _ => true, headerValueOk := fun _ => true }

/-- A store with one A2A target and one unsupported-variant target. -/
def witnessStore : A2aStore :=
  { targets :=
      [("t1", { name := "t1",
                spec := .a2a { host := "h", port := 80, path := "/", headers := [],
                               hasBackendAuth := false } }),
       ("bad", { name := "bad", spec := .otherVariant })] }

/-- The upstream cached under `t1` in the witness pool state. -/
def witnessUpstream : A2aUpstream := .a2a { url := "http://h:80/", headers := [] }

/-- Witness for C10: a cache hit, a missing configuration, and a failed
construction (unsupported target variant), each at concrete inputs. -/
theorem c10_get_or_create_cache_semantics_witness :
    a2aGetOrCreate witnessEnv witnessStore [("t1", witnessUpstream)] "t1"
      = (.ok witnessUpstream, [("t1", witnessUpstream)]) ∧
    a2aGetOrCreate witnessEnv witnessStore [] "missing"
      = (.error "Target configuration not found for missing", []) ∧
    a2aGetOrCreate witnessEnv witnessStore [] "bad"
      = (.error "only A2A target is supported", []) :=
  ⟨(c10_get_or_create_cache_semantics witnessEnv witnessStore [("t1", witnessUpstream)] "t1"
      witnessUpstream { name := "bad", spec := .otherVariant } "x").1 rfl,
   (c10_get_or_create_cache_semantics witnessEnv witnessStore [] "missing"
      witnessUpstream { name := "bad", spec := .otherVariant } "x").2.1 rfl rfl,
   ((c10_get_or_create_cache_semantics witnessEnv witnessStore [] "bad"
      witnessUpstream { name := "bad", spec := .otherVariant }
      "only A2A target is supported").2.2 rfl rfl rfl).1⟩

/-- C6, failing input: on `type: ["string", "number", "boolean"]` the
normalizer keeps the LAST non-null entry (`boolean`), not the first
(`string`) as the claim — and the repository's own test
`test_normalize_schema_v3_1_edge_cases` — state; the first two claim
bullets (`[T, "null"]` and `["null"]`) do hold on the code. -/
theorem c6_type_array_last_non_null :
    (normalizeSchemaV31 (.obj [("type", .arr [.str "string", .str "number", .str "boolean"])])
      = .obj [("type", .str "boolean")]) ∧
    Json.str "boolean" ≠ Json.str "string" ∧
    (normalizeSchemaV31 (.obj [("type", .arr [.str "string", .str "null"])])
      = .obj [("type", .str "string"), ("nullable", .bool true)]) ∧
    (normalizeSchemaV31 (.obj [("type", .arr [.str "null"])])
      = .obj [("type", .str "null")]) ∧
    normalizeTypeArray ["string", "number", "boolean"] = (some "string", false) := by
  refine ⟨?_, ?_, ?_, ?_, ?_⟩
  · rw [normalizeSchemaV31]; rfl
  · intro h; injection h with h1; exact absurd h1 (by decide)
  · rw [normalizeSchemaV31]; rfl
  · rw [normalizeSchemaV31]; rfl
  · rfl

/-- Dropping errors distributes over concatenation. -/
theorem okList_append {α : Type} (l1 l2 : List (Except McpError α)) :
    okList (l1 ++ l2) = okList l1 ++ okList l2 := by
  induction l1 with
  | nil => rfl
  | cons hd tl ih => cases hd <;> simp [okList, ih]

/-- A one-target sub-result that the relay leaves untouched. -/
def resourceR1 : McpResource := { uri := "r1", name := "r1" }

/-- Sub-lists of one concrete target serving exactly one resource. -/
def svcOneResource : SvcListResults :=
  { tools := .ok [], prompts := .ok [],
    resources := .ok [resourceR1], resourceTemplates := .ok [] }

/-- C8, counterexample: on the fan-out for `list_resources` the item of
target `A` comes back exactly as the upstream sent it (`r1`), not
rewritten to `A:r1` — the relay rewrites only tools and prompts. -/
theorem c8_resources_not_prefixed :
    relayListResources [("A", svcOneResource)] = [resourceR1] ∧
    resourceR1.uri = "r1" ∧ resourceR1.name = "r1" ∧
    ("A" ++ ":" ++ "r1") ≠ "r1" :=
  ⟨rfl, rfl, rfl, by decide⟩

/-- C8 amended: in every fan-out list call, per-target sub-results are
concatenated in target order and a failing target's sub-list is omitted
without failing the whole call; `list_tools` and `list_prompts` rewrite
each item by prefixing the owning target name, while `list_resources`
and `list_resource_templates` concatenate the sub-lists unchanged. -/
theorem c8_fanout_merge_semantics (pre post : List (String × SvcListResults))
    (name : String) (svc : SvcListResults) :
    (∀ ts, svc.tools = .ok ts →
      relayListTools (pre ++ (name, svc) :: post) =
        relayListTools pre ++ ts.map (prefixedTool name) ++ relayListTools post) ∧
    (∀ e, svc.tools = .error e →
      relayListTools (pre ++ (name, svc) :: post) =
        relayListTools pre ++ relayListTools post) ∧
    (∀ ps, svc.prompts = .ok ps →
      relayListPrompts (pre ++ (name, svc) :: post) =
        relayListPrompts pre ++ ps.map (prefixedPrompt name) ++ relayListPrompts post) ∧
    (∀ e, svc.prompts = .error e →
      relayListPrompts (pre ++ (name, svc) :: post) =
        relayListPrompts pre ++ relayListPrompts post) ∧
    (∀ rs, svc.resources = .ok rs →
      relayListResources (pre ++ (name, svc) :: post) =
        relayListResources pre ++ rs ++ relayListResources post) ∧
    (∀ e, svc.resources = .error e →
      relayListResources (pre ++ (name, svc) :: post) =
        relayListResources pre ++ relayListResources post) ∧
    (∀ rs, svc.resourceTemplates = .ok rs →
      relayListResourceTemplates (pre ++ (name, svc) :: post) =
        relayListResourceTemplates pre ++ rs ++ relayListResourceTemplates post) ∧
    (∀ e, svc.resourceTemplates = .error e →
      relayListResourceTemplates (pre ++ (name, svc) :: post) =
        relayListResourceTemplates pre ++ relayListResourceTemplates post) := by
  refine ⟨fun ts h => ?_, fun e h => ?_, fun ps h => ?_, fun e h => ?_,
          fun rs h => ?_, fun e h => ?_, fun rs h => ?_, fun e h => ?_⟩
  all_goals
    simp [relayListTools, relayListPrompts, relayListResources, relayListResourceTemplates,
          List.map_append, okList_append, okList, h, Except.map, List.append_assoc]

/-- Sub-lists of a failing target (every list call errors). -/
def svcFailing : SvcListResults :=
  { tools := .error (.internalError "down"), prompts := .error (.internalError "down"),
    resources := .error (.internalError "down"),
    resourceTemplates := .error (.internalError "down") }

/-- A target serving one tool named `t1` and one prompt named `p1`. -/
def svcOneTool : SvcListResults :=
  { tools := .ok [{ name := "t1", description := none, inputSchema := .null }],
    prompts := .ok [{ name := "p1", description := none, arguments := none }],
    resources := .ok [], resourceTemplates := .ok [] }

/-- Witness for the amended C8: concatenation with prefixing for tools,
and omission of the failing middle target. -/
theorem c8_fanout_merge_semantics_witness :
    svcOneTool.tools = .ok [{ name := "t1", description := none, inputSchema := .null }] ∧
    relayListTools [("A", svcOneTool), ("B", svcFailing)] =
      [{ name := "A:t1", description := none, inputSchema := .null }] ∧
    svcFailing.tools = .error (.internalError "down") ∧
    relayListTools [("B", svcFailing)] = [] :=
  ⟨rfl,
   by
    have h := (c8_fanout_merge_semantics [] [("B", svcFailing)] "A" svcOneTool).1
      [{ name := "t1", description := none, inputSchema := .null }] rfl
    simpa [relayListTools, okList, svcFailing, prefixedTool] using h,
   rfl,
   by
    have h := (c8_fanout_merge_semantics [] [] "B" svcFailing).2.1 (.internalError "down") rfl
    simpa using h⟩

/-! ### Operation-id semantics (C5) -/

/-- The operation identifiers of a 3.0 document that are present, per
path in declaration order (referenced path items contribute nothing;
they cannot occur in an accepted document). -/
def opIdsV30 (doc : OpenApiDocV3) : List String :=
  (doc.paths.map (fun pp =>
    match pp.2 with
    | .item pitem => pitem.ops.filterMap (fun mo => mo.2.operationId)
    | .ref _ => [])).flatten

/-- An accepted operation's tool carries its `operationId` as name. -/
theorem synthOpV30_name {doc : OpenApiDocV3} {ord : List ParameterType}
    {p m : String} {op : OperationV3} {t : ToolDefV30} {u : UpstreamCall}
    (h : synthOpV30 doc ord p m op = .ok (t, u)) : op.operationId = some t.name := by
  unfold synthOpV30 at h
  match hid : op.operationId with
  | none => rw [hid] at h; exact absurd h (by simp)
  | some name0 =>
    rw [hid] at h
    match hb : bodyInfoV30 doc op with
    | .error e => rw [hb] at h; exact absurd h (by simp)
    | .ok bodyRes =>
      rw [hb] at h
      match hg : buildGroupsV30 doc op.parameters [] with
      | .error e => rw [hg] at h; exact absurd h (by simp)
      | .ok groups =>
        rw [hg] at h
        simp at h
        rw [← h.1]

/-- An operation without `operationId` fails synthesis immediately. -/
theorem synthOpV30_noId {doc : OpenApiDocV3} {ord : List ParameterType}
    {p m : String} {op : OperationV3} (h : op.operationId = none) :
    synthOpV30 doc ord p m op =
      .error (.informationRequired ("operation_id is required for " ++ p)) := by
  unfold synthOpV30
  rw [h]

/-- Accepted path items map their tools onto exactly the present
operation ids, in order. -/
theorem synthPathOpsV30_ok_names {doc : OpenApiDocV3}
    {ordAt : String → String → List ParameterType} {path : String} :
    ∀ {ops : List (String × OperationV3)} {l : List (ToolDefV30 × UpstreamCall)},
      synthPathOpsV30 doc ordAt path ops = .ok l →
      l.map (fun tu => tu.1.name) = ops.filterMap (fun mo => mo.2.operationId) ∧
      ∀ mo ∈ ops, mo.2.operationId.isSome := by
  intro ops
  induction ops with
  | nil =>
    intro l h
    simp [synthPathOpsV30] at h
    simp [← h]
  | cons mo rest ih =>
    intro l h
    obtain ⟨method, op⟩ := mo
    rw [synthPathOpsV30] at h
    match hop : synthOpV30 doc (ordAt path method) path method op with
    | .error e => rw [hop] at h; exact absurd h (by simp)
    | .ok tu =>
      rw [hop] at h
      match hrest : synthPathOpsV30 doc ordAt path rest with
      | .error e => rw [hrest] at h; exact absurd h (by simp)
      | .ok rest1 =>
        rw [hrest] at h
        simp at h
        obtain ⟨names, allSome⟩ := ih hrest
        have hname : op.operationId = some tu.1.name := synthOpV30_name hop
        constructor
        · rw [← h]
          simp [List.filterMap_cons, hname, names]
        · intro mo1 hmem
          rcases List.mem_cons.mp hmem with hhd | htl
          · rw [hhd]; simp [hname]
          · exact allSome mo1 htl

/-- Accepted documents: every path is inline, and the per-path tool
lists line up with the present operation ids. -/
theorem synthPathsV30_ok_names {doc : OpenApiDocV3}
    {ordAt : String → String → List ParameterType} :
    ∀ {paths : List (String × RefOr PathItemV3)} {ls : List (List (ToolDefV30 × UpstreamCall))},
      synthPathsV30 doc ordAt paths = .ok ls →
      ls.map (fun l => l.map (fun tu => tu.1.name)) =
        paths.map (fun pp =>
          match pp.2 with
          | .item pitem => pitem.ops.filterMap (fun mo => mo.2.operationId)
          | .ref _ => []) ∧
      ∀ pp ∈ paths, ∀ pitem, pp.2 = .item pitem → ∀ mo ∈ pitem.ops, mo.2.operationId.isSome := by
  intro paths
  induction paths with
  | nil =>
    intro ls h
    simp [synthPathsV30] at h
    simp [← h]
  | cons pp rest ih =>
    intro ls h
    obtain ⟨path, pref⟩ := pp
    match href : pref with
    | .ref r =>
      rw [synthPathsV30] at h
      exact absurd h (by simp)
    | .item pitem =>
      rw [synthPathsV30] at h
      match hops : synthPathOpsV30 doc ordAt path pitem.ops with
      | .error e => rw [hops] at h; exact absurd h (by simp)
      | .ok tus =>
        rw [hops] at h
        match hrest : synthPathsV30 doc ordAt rest with
        | .error e => rw [hrest] at h; exact absurd h (by simp)
        | .ok rest1 =>
          rw [hrest] at h
          simp at h
          obtain ⟨names1, allSome1⟩ := synthPathOpsV30_ok_names hops
          obtain ⟨names2, allSome2⟩ := ih hrest
          constructor
          · rw [← h]
            simp [href, names1, names2]
          · intro pp1 hmem pitem1 hitem mo hmo
            rcases List.mem_cons.mp hmem with hhd | htl
            · rw [hhd] at hitem
              have : pitem = pitem1 := by simpa using hitem
              exact allSome1 mo (this ▸ hmo)
            · exact allSome2 pp1 htl pitem1 hitem mo hmo

/-- A 3.1 operation without `operationId`. -/
def op31NoId : OperationV31 :=
  { operationId := none, summary := none, description := none,
    parameters := none, requestBody := none }

/-- A 3.1 document whose only operation lacks an `operationId`. -/
def doc31NoId : OpenApiDocV31 :=
  { paths := [("/ping",
      { get := some op31NoId, post := none, put := none, delete := none, patch := none })] }

/-- C5, counterexample: a 3.1 document with an operation that has no
`operationId` synthesizes to the empty tool list with `Ok` — the
operation is silently skipped, no `InformationRequired` error occurs. -/
theorem c5_counterexample_v31_skips :
    (doc31NoId.paths.map (fun pp => pp.2.get)) = [some op31NoId] ∧
    op31NoId.operationId = none ∧
    parseSchemaV31 doc31NoId = .ok [] :=
  ⟨rfl, rfl, rfl⟩

/-- C5 amended: in the 3.0 parser an operation without `operationId`
makes synthesis of the whole document fail (with `InformationRequired`
raised at that operation), and accepted documents name each tool by its
operation's `operationId`; the 3.1 parser instead never fails for a
missing `operationId` — it silently skips such operations and produces
tools (named by `operationId`) exactly for the operations that have
one. -/
theorem c5_operation_id_semantics :
    (∀ (doc : OpenApiDocV3) (ordAt : String → String → List ParameterType)
       (path : String) (pitem : PathItemV3) (method : String) (op : OperationV3),
       (path, RefOr.item pitem) ∈ doc.paths → (method, op) ∈ pitem.ops →
       op.operationId = none →
       ∀ tools, parseOpenapiV30 doc ordAt ≠ .ok tools) ∧
    (∀ (doc : OpenApiDocV3) (ordAt : String → String → List ParameterType)
       (tools : List (ToolDefV30 × UpstreamCall)),
       parseOpenapiV30 doc ordAt = .ok tools →
       tools.map (fun tu => tu.1.name) = opIdsV30 doc) ∧
    (∀ doc31 : OpenApiDocV31, ∃ ts, parseSchemaV31 doc31 = .ok ts ∧
       ts.map (fun tu => tu.1.name) = opIdsV31 doc31) := by
  refine ⟨?_, ?_, ?_⟩
  · intro doc ordAt path pitem method op hpath hop hnone tools hok
    unfold parseOpenapiV30 at hok
    match hs : synthPathsV30 doc ordAt doc.paths with
    | .error e => rw [hs] at hok; exact absurd hok (by simp)
    | .ok ls =>
      have allSome := (synthPathsV30_ok_names hs).2 (path, RefOr.item pitem) hpath pitem rfl
        (method, op) hop
      simp at allSome
      rw [hnone] at allSome
      exact absurd allSome (by simp)
  · intro doc ordAt tools hok
    unfold parseOpenapiV30 at hok
    match hs : synthPathsV30 doc ordAt doc.paths with
    | .error e => rw [hs] at hok; exact absurd hok (by simp)
    | .ok ls =>
      rw [hs] at hok
      simp at hok
      have names := (synthPathsV30_ok_names hs).1
      rw [← hok, opIdsV30, ← names, List.map_flatten]
  · intro doc31
    refine ⟨_, rfl, ?_⟩
    rw [opIdsV31, List.map_flatten, List.map_map]
    apply congrArg List.flatten
    apply List.map_eq_map_iff.mpr
    intro pp _
    rw [Function.comp_apply, List.map_filterMap]
    apply List.filterMap_congr
    intro mo _
    match hmo : mo.2 with
    | none => rfl
    | some op =>
      match hid : op.operationId with
      | none => simp only [hid]; rfl
      | some oid => simp only [hid]; rfl

/-- A fixed hash-map iteration order used in witnesses. -/
def stdOrd : String → String → List ParameterType :=
  fun _ _ => [.header, .query, .path]

/-- A 3.0 operation without `operationId`. -/
def op30NoId : OperationV3 :=
  { operationId := none, summary := none, description := none,
    parameters := [], requestBody := none }

/-- A 3.0 document whose only operation lacks an `operationId`. -/
def doc30NoId : OpenApiDocV3 :=
  { paths := [("/x", .item { ops := [("get", op30NoId)] })], components := none }

/-- A minimal 3.0 operation (`operationId: ping`, no parameters). -/
def opPing : OperationV3 :=
  { operationId := some "ping", summary := none, description := none,
    parameters := [], requestBody := none }

/-- A one-operation 3.0 document. -/
def docPing : OpenApiDocV3 :=
  { paths := [("/ping", .item { ops := [("get", opPing)] })], components := none }

/-- The tool list `docPing` synthesizes to. -/
def pingTools : List (ToolDefV30 × UpstreamCall) :=
  [({ name := "ping", description := some "ping",
      inputSchema := { required := [], properties := [] } },
    { method := "get", path := "/ping" })]

/-- A minimal 3.1 operation with an `operationId`. -/
def op31Ping : OperationV31 :=
  { operationId := some "ping31", summary := none, description := none,
    parameters := none, requestBody := none }

/-- A 3.1 document with one identified and one unidentified operation. -/
def doc31Mixed : OpenApiDocV31 :=
  { paths := [("/ping",
      { get := some op31Ping, post := some op31NoId, put := none,
        delete := none, patch := none })] }

/-- Witness for the amended C5 at concrete documents: the 3.0 document
with a missing `operationId` is rejected; the accepted 3.0 document
names its tool `ping`; the mixed 3.1 document yields exactly the tools
of the identified operations. -/
theorem c5_operation_id_semantics_witness :
    op30NoId.operationId = none ∧
    parseOpenapiV30 doc30NoId stdOrd ≠ .ok [] ∧
    (parseOpenapiV30 docPing stdOrd = .ok pingTools ∧
      pingTools.map (fun tu => tu.1.name) = opIdsV30 docPing) ∧
    (∃ ts, parseSchemaV31 doc31Mixed = .ok ts ∧
      ts.map (fun tu => tu.1.name) = opIdsV31 doc31Mixed) :=
  ⟨rfl,
   c5_operation_id_semantics.1 doc30NoId stdOrd "/x" { ops := [("get", op30NoId)] }
     "get" op30NoId (List.mem_singleton.mpr rfl) (List.mem_singleton.mpr rfl) rfl [],
   ⟨rfl, c5_operation_id_semantics.2.1 docPing stdOrd pingTools rfl⟩,
   c5_operation_id_semantics.2.2 doc31Mixed⟩


/-- Elimination principle for an accepted operation: recover the
intermediate results of the per-operation synthesis. -/
theorem synthOpV30_ok_elim {doc : OpenApiDocV3} {ord : List ParameterType}
    {p m : String} {op : OperationV3} {t : ToolDefV30} {u : UpstreamCall}
    (h : synthOpV30 doc ord p m op = .ok (t, u)) :
    ∃ name0 bodyRes groups,
      op.operationId = some name0 ∧
      bodyInfoV30 doc op = .ok bodyRes ∧
      buildGroupsV30 doc op.parameters [] = .ok groups ∧
      t = { name := name0,
            description := some (opDescriptionV30 op name0),
            inputSchema := (iterGroups ord groups).foldl applyGroup (bodySeedSchema bodyRes) } ∧
      u = { method := m, path := p } := by
  unfold synthOpV30 at h
  match hid : op.operationId with
  | none => rw [hid] at h; exact absurd h (by simp)
  | some name0 =>
    rw [hid] at h
    match hb : bodyInfoV30 doc op with
    | .error e => rw [hb] at h; exact absurd h (by simp)
    | .ok bodyRes =>
      rw [hb] at h
      match hg : buildGroupsV30 doc op.parameters [] with
      | .error e => rw [hg] at h; exact absurd h (by simp)
      | .ok groups =>
        rw [hg] at h
        simp at h
        exact ⟨name0, bodyRes, groups, rfl, rfl, rfl, h.1.symm, h.2.symm⟩

/-- A property lifted from accepted operations to every synthesized tool
of an accepted document. -/
theorem parseOpenapiV30_forall {doc : OpenApiDocV3}
    {ordAt : String → String → List ParameterType}
    {tools : List (ToolDefV30 × UpstreamCall)}
    (P : ToolDefV30 × UpstreamCall → Prop)
    (hP : ∀ path method op tu,
      synthOpV30 doc (ordAt path method) path method op = .ok tu → P tu)
    (h : parseOpenapiV30 doc ordAt = .ok tools) :
    ∀ tu ∈ tools, P tu := by
  have hops : ∀ (path : String) (ops : List (String × OperationV3))
      (l : List (ToolDefV30 × UpstreamCall)),
      synthPathOpsV30 doc ordAt path ops = .ok l → ∀ tu ∈ l, P tu := by
    intro path ops
    induction ops with
    | nil =>
      intro l hl tu htu
      rw [synthPathOpsV30] at hl
      injection hl with hl
      rw [← hl] at htu
      exact absurd htu (List.not_mem_nil tu)
    | cons mo rest ih =>
      intro l hl tu htu
      obtain ⟨method, op⟩ := mo
      rw [synthPathOpsV30] at hl
      match hop : synthOpV30 doc (ordAt path method) path method op with
      | .error e => rw [hop] at hl; exact absurd hl (by simp)
      | .ok tu1 =>
        rw [hop] at hl
        match hrest : synthPathOpsV30 doc ordAt path rest with
        | .error e => rw [hrest] at hl; exact absurd hl (by simp)
        | .ok rest1 =>
          rw [hrest] at hl
          simp at hl
          rw [← hl] at htu
          rcases List.mem_cons.mp htu with h1 | h1
          · exact h1 ▸ hP path method op tu1 hop
          · exact ih rest1 hrest tu h1
  have hpaths : ∀ (paths : List (String × RefOr PathItemV3))
      (ls : List (List (ToolDefV30 × UpstreamCall))),
      synthPathsV30 doc ordAt paths = .ok ls → ∀ l ∈ ls, ∀ tu ∈ l, P tu := by
    intro paths
    induction paths with
    | nil =>
      intro ls hl l hmem
      rw [synthPathsV30] at hl
      injection hl with hl
      rw [← hl] at hmem
      exact absurd hmem (List.not_mem_nil l)
    | cons pp rest ih =>
      intro ls hl l hmem
      obtain ⟨path, pref⟩ := pp
      match href : pref with
      | .ref r =>
        rw [synthPathsV30] at hl
        exact absurd hl (by simp)
      | .item pitem =>
        rw [synthPathsV30] at hl
        match hops1 : synthPathOpsV30 doc ordAt path pitem.ops with
        | .error e => rw [hops1] at hl; exact absurd hl (by simp)
        | .ok tus =>
          rw [hops1] at hl
          match hrest : synthPathsV30 doc ordAt rest with
          | .error e => rw [hrest] at hl; exact absurd hl (by simp)
          | .ok rest1 =>
            rw [hrest] at hl
            simp at hl
            rw [← hl] at hmem
            rcases List.mem_cons.mp hmem with h1 | h1
            · exact h1 ▸ hops path pitem.ops tus hops1
            · exact ih rest1 hrest l h1
  unfold parseOpenapiV30 at h
  match hs : synthPathsV30 doc ordAt doc.paths with
  | .error e => rw [hs] at h; exact absurd h (by simp)
  | .ok ls =>
    rw [hs] at h
    simp at h
    intro tu htu
    rw [← h] at htu
    obtain ⟨l, hlmem, htumem⟩ := List.mem_flatten.mp htu
    exact hpaths doc.paths ls hs l hlmem tu htumem

/-! ### Top-level property names (C3) -/

/-- The fixed set of top-level input-schema properties of the spec. -/
def allowedTopLevelProps : List String := ["body", "header", "query", "path"]

/-- Keys after an insert-or-replace: the new key or an old key. -/
theorem fieldKeys_upsert {k : String} {v : Json} :
    ∀ {l : List (String × Json)} {k0 : String},
      k0 ∈ fieldKeys (upsertField k v l) → k0 = k ∨ k0 ∈ fieldKeys l := by
  intro l
  induction l with
  | nil =>
    intro k0 h
    rw [upsertField, fieldKeys] at h
    simp at h
    exact Or.inl h
  | cons hd tl ih =>
    intro k0 h
    obtain ⟨k1, v1⟩ := hd
    rw [upsertField] at h
    by_cases he : k1 = k
    · rw [if_pos he] at h
      rw [fieldKeys, List.map_cons] at h
      rcases List.mem_cons.mp h with h1 | h1
      · exact Or.inl h1
      · right
        rw [fieldKeys, List.map_cons]
        exact List.mem_cons_of_mem _ h1
    · rw [if_neg he] at h
      rw [fieldKeys, List.map_cons] at h
      rcases List.mem_cons.mp h with h1 | h1
      · right
        rw [fieldKeys, List.map_cons, h1]
        exact List.mem_cons_self _ _
      · rcases ih h1 with h2 | h2
        · exact Or.inl h2
        · right
          rw [fieldKeys, List.map_cons]
          exact List.mem_cons_of_mem _ h2

/-- Keys produced by the group-insertion loop: either already present or
one of the inserted group names. -/
theorem foldl_applyGroup_keys :
    ∀ (gs : List (ParameterType × List PropEntry)) (acc : JsonSchemaV3) (k0 : String),
      k0 ∈ fieldKeys (gs.foldl applyGroup acc).properties →
      k0 ∈ fieldKeys acc.properties ∨ ∃ kg ∈ gs, k0 = kg.1.toStr := by
  intro gs
  induction gs with
  | nil => intro acc k0 h; exact Or.inl h
  | cons g rest ih =>
    intro acc k0 h
    rw [List.foldl_cons] at h
    rcases ih (applyGroup acc g) k0 h with h1 | h1
    · rcases fieldKeys_upsert h1 with h2 | h2
      · exact Or.inr ⟨g, List.mem_cons_self g rest, h2⟩
      · exact Or.inl h2
    · obtain ⟨kg, hmem, he⟩ := h1
      exact Or.inr ⟨kg, List.mem_cons_of_mem g hmem, he⟩

/-- The body-handling step only ever reports the property name `body`. -/
theorem bodyInfoV30_name {doc : OpenApiDocV3} {op : OperationV3}
    {bn : String} {bs : Json} {rq : Bool}
    (h : bodyInfoV30 doc op = .ok (some (bn, bs, rq))) : bn = "body" := by
  unfold bodyInfoV30 at h
  repeat' split at h
  all_goals simp_all

/-- Keys of the body seed schema: only the body property name. -/
theorem bodySeedSchema_keys {bodyRes : Option (String × Json × Bool)} {k0 : String}
    (h : k0 ∈ fieldKeys (bodySeedSchema bodyRes).properties) :
    ∃ bn bs rq, bodyRes = some (bn, bs, rq) ∧ k0 = bn := by
  match hbr : bodyRes with
  | none =>
    simp [bodySeedSchema, fieldKeys] at h
  | some (bn, bs, rq) =>
    simp only [bodySeedSchema] at h
    rcases fieldKeys_upsert h with h1 | h1
    · exact ⟨bn, bs, rq, rfl, h1⟩
    · rcases fieldKeys_upsert h1 with h2 | h2
      · exact ⟨bn, bs, rq, rfl, h2⟩
      · simp [fieldKeys] at h2

/-- C3 amended, per accepted operation of the 3.0 synthesizer: every
top-level property of the tool's input schema is in the fixed set. -/
theorem synthOpV30_props_subset {doc : OpenApiDocV3} {ord : List ParameterType}
    {p m : String} {op : OperationV3} {t : ToolDefV30} {u : UpstreamCall}
    (h : synthOpV30 doc ord p m op = .ok (t, u)) :
    ∀ k ∈ fieldKeys t.inputSchema.properties, k ∈ allowedTopLevelProps := by
  obtain ⟨name0, bodyRes, groups, _, hb, _, ht, _⟩ := synthOpV30_ok_elim h
  intro k hk
  rw [ht] at hk
  rcases foldl_applyGroup_keys _ _ _ hk with h1 | h1
  · obtain ⟨bn, bs, rq, hbr, hkbn⟩ := bodySeedSchema_keys h1
    rw [hbr] at hb
    rw [hkbn, bodyInfoV30_name hb]
    simp [allowedTopLevelProps]
  · obtain ⟨kg, _, he⟩ := h1
    rw [he]
    cases kg.1 <;> simp [ParameterType.toStr, allowedTopLevelProps]

/-- C3 amended: for every accepted OpenAPI 3.0 document and every
synthesized tool, the top-level properties of the tool's input schema
are a subset of the fixed set (body, header, query, path); this holds
for every hash-map iteration order. -/
theorem c3_v30_top_level_props_subset (doc : OpenApiDocV3)
    (ordAt : String → String → List ParameterType)
    (tools : List (ToolDefV30 × UpstreamCall))
    (h : parseOpenapiV30 doc ordAt = .ok tools) :
    ∀ tu ∈ tools, ∀ k ∈ fieldKeys tu.1.inputSchema.properties, k ∈ allowedTopLevelProps := by
  refine parseOpenapiV30_forall
    (fun tu => ∀ k ∈ fieldKeys tu.1.inputSchema.properties, k ∈ allowedTopLevelProps)
    (fun path method op tu hop => ?_) h
  obtain ⟨t, u⟩ := tu
  exact synthOpV30_props_subset hop

/-- The serialized 3.1 `limit` query parameter of the counterexample. -/
def limitParamJson : Json :=
  .obj [("name", .str "limit"), ("in", .str "query"), ("required", .bool false),
        ("schema", .obj [("type", .str "integer")])]

/-- A 3.1 operation with one query parameter named `limit`. -/
def op31ListItems : OperationV31 :=
  { operationId := some "listItems", summary := none, description := none,
    parameters := some [limitParamJson], requestBody := none }

/-- C3, counterexample: the 3.1 path puts the parameter name itself at
the top level of the input schema — the tool for `op31ListItems` has
top-level property `limit`, which is not in the fixed set. -/
theorem c3_counterexample_v31_flat_props :
    ((createToolFromOperationV31 "listItems" "GET" "/items" op31ListItems).1.inputSchema.lookup
        "properties").map (fun j => match j with | .obj fs => fieldKeys fs | _ => [])
      = some ["limit"] ∧
    "limit" ∉ allowedTopLevelProps := by
  constructor
  · have hN : normalizeSchemaV31 (.obj [("type", .str "integer")]) =
        .obj [("type", .str "integer")] := by
      rw [normalizeSchemaV31]; rfl
    simp [createToolFromOperationV31, op31ListItems, limitParamJson, processParameterV31,
          Json.getStr, Json.getBool, Json.lookup, Json.setKey, upsertField, fieldKeys,
          List.lookup, hN]
  · decide

/-- Witness for the amended C3 at a concrete accepted 3.0 document with
one required query parameter. -/
def opW : OperationV3 :=
  { operationId := some "w", summary := none, description := none,
    parameters :=
      [.item { name := "q", location := .query, required := true, description := none,
               format := .schemaFmt (.item (.obj [("type", .str "string")])) }],
    requestBody := none }

/-- The accepting document for the C3 witness. -/
def docW : OpenApiDocV3 :=
  { paths := [("/w", .item { ops := [("get", opW)] })], components := none }

/-- The tools `docW` synthesizes to under `stdOrd`. -/
def docWTools : List (ToolDefV30 × UpstreamCall) :=
  [({ name := "w", description := some "w",
      inputSchema :=
        { required := ["query"],
          properties :=
            [("query",
              .obj [("required", .arr [.str "q"]),
                    ("properties", .obj [("q", .obj [("type", .str "string")])]),
                    ("type", .str "object")])] } },
    { method := "get", path := "/w" })]

/-- Witness for the amended C3: the concrete document is accepted and
every top-level property of its tool lies in the fixed set. -/
theorem c3_v30_top_level_props_subset_witness :
    parseOpenapiV30 docW stdOrd = .ok docWTools ∧
    (∀ tu ∈ docWTools, ∀ k ∈ fieldKeys tu.1.inputSchema.properties, k ∈ allowedTopLevelProps) :=
  ⟨rfl, c3_v30_top_level_props_subset docW stdOrd docWTools rfl⟩

/-! ### Determinism up to hash-map iteration order (C4) -/

/-- The group names are pairwise distinct as strings. -/
theorem ParameterType.toStr_inj : ∀ {a b : ParameterType}, a.toStr = b.toStr → a = b := by
  intro a b
  cases a <;> cases b <;> simp [ParameterType.toStr]

/-- Insert-or-replace of an absent key appends. -/
theorem upsertField_append {k : String} {v : Json} :
    ∀ {l : List (String × Json)}, k ∉ fieldKeys l → upsertField k v l = l ++ [(k, v)] := by
  intro l
  induction l with
  | nil => intro; rfl
  | cons hd tl ih =>
    intro h
    obtain ⟨k1, v1⟩ := hd
    rw [fieldKeys, List.map_cons] at h
    rw [upsertField, if_neg (fun he => h (by rw [he]; exact List.mem_cons_self _ _)),
        ih (fun hm => h (List.mem_cons_of_mem _ hm))]
    rfl

/-- The `required` contribution of one group in the insertion loop. -/
def groupEntryReq (kg : ParameterType × List PropEntry) : Option String :=
  if (groupRequiredNames kg.2).isEmpty then none else some kg.1.toStr

/-- The `properties` contribution of one group in the insertion loop. -/
def groupEntryProp (kg : ParameterType × List PropEntry) : String × Json :=
  (kg.1.toStr, subSchemaJson kg.2)

/-- The group-insertion loop in closed form: when the group names are
fresh for the accumulator and pairwise distinct (which holds for every
faithful iteration order), the loop appends its `required` and
`properties` contributions in iteration order. -/
theorem foldl_applyGroup_spec :
    ∀ (gs : List (ParameterType × List PropEntry)) (acc : JsonSchemaV3),
      (∀ kg ∈ gs, kg.1.toStr ∉ fieldKeys acc.properties) →
      (gs.map (fun kg => kg.1)).Nodup →
      gs.foldl applyGroup acc =
        { required := acc.required ++ gs.filterMap groupEntryReq,
          properties := acc.properties ++ gs.map groupEntryProp } := by
  intro gs
  induction gs with
  | nil => intro acc _ _; simp
  | cons g rest ih =>
    intro acc hfresh hnodup
    rw [List.foldl_cons]
    have hfreshg : g.1.toStr ∉ fieldKeys acc.properties :=
      hfresh g (List.mem_cons_self g rest)
    have hstep : applyGroup acc g =
        { required := acc.required ++ (groupEntryReq g).toList,
          properties := acc.properties ++ [groupEntryProp g] } := by
      rw [applyGroup, upsertField_append hfreshg]
      rw [groupEntryReq, groupEntryProp]
      by_cases he : (groupRequiredNames g.2).isEmpty
      · rw [if_pos he, if_pos he]; rfl
      · rw [if_neg he, if_neg he]; rfl
    rw [hstep]
    rw [List.map_cons] at hnodup
    have hnodup1 := (List.nodup_cons.mp hnodup).2
    have hne := (List.nodup_cons.mp hnodup).1
    have hfresh1 : ∀ kg ∈ rest,
        kg.1.toStr ∉ fieldKeys (acc.properties ++ [groupEntryProp g]) := by
      intro kg hmem hin
      rw [fieldKeys, List.map_append] at hin
      rcases List.mem_append.mp hin with h1 | h1
      · exact hfresh kg (List.mem_cons_of_mem g hmem) h1
      · simp [groupEntryProp] at h1
        exact hne (by
          rw [← ParameterType.toStr_inj h1]
          exact List.mem_map_of_mem (fun kg => kg.1) hmem)
    rw [ih _ hfresh1 hnodup1]
    cases hr : groupEntryReq g <;>
      simp [List.filterMap_cons, hr, List.append_assoc]

/-- The keys of a restricted iteration are a sublist of the order. -/
theorem iterGroups_keys_sublist (ord : List ParameterType) (g : ParamGroups) :
    ((iterGroups ord g).map (fun kg => kg.1)).Sublist ord := by
  induction ord with
  | nil => simp [iterGroups]
  | cons k rest ih =>
    rw [iterGroups, List.filterMap_cons]
    cases hl : List.lookup k g with
    | none =>
      simp only [hl, Option.map_none']
      exact ih.cons k
    | some es =>
      simp only [hl, Option.map_some', List.map_cons]
      exact ih.cons₂ k

/-- Two faithful iteration orders enumerate the same groups up to
permutation. -/
theorem iterGroups_perm {o1 o2 : List ParameterType} (g : ParamGroups)
    (h1 : PriorityOrder o1) (h2 : PriorityOrder o2) :
    (iterGroups o1 g).Perm (iterGroups o2 g) :=
  List.Perm.filterMap _ (h1.trans h2.symm)

/-- A faithful iteration order has pairwise distinct keys. -/
theorem priorityOrder_nodup {o : List ParameterType} (h : PriorityOrder o) : o.Nodup :=
  h.nodup_iff.mpr (by decide)

/-- Pointwise relation between the outputs of two synthesis runs: same
name, description and upstream call; the required list and the property
map agree up to permutation. -/
def ToolOutputRel (a b : ToolDefV30 × UpstreamCall) : Prop :=
  a.1.name = b.1.name ∧ a.1.description = b.1.description ∧ a.2 = b.2 ∧
  a.1.inputSchema.required.Perm b.1.inputSchema.required ∧
  a.1.inputSchema.properties.Perm b.1.inputSchema.properties

/-- Relation between two fallible results: equal errors, or related
successes. -/
inductive ExceptRel {α : Type} (R : α → α → Prop) :
    Except ParseError α → Except ParseError α → Prop where
  | ok {a b : α} : R a b → ExceptRel R (.ok a) (.ok b)
  | err {e : ParseError} : ExceptRel R (.error e) (.error e)

/-- Unconditional equation for the accepting path of the per-operation
synthesis. -/
theorem synthOpV30_eq_ok {doc : OpenApiDocV3} {ord : List ParameterType}
    {p m : String} {op : OperationV3} {name0 : String}
    {bodyRes : Option (String × Json × Bool)} {groups : ParamGroups}
    (hid : op.operationId = some name0)
    (hb : bodyInfoV30 doc op = .ok bodyRes)
    (hg : buildGroupsV30 doc op.parameters [] = .ok groups) :
    synthOpV30 doc ord p m op =
      .ok ({ name := name0,
             description := some (opDescriptionV30 op name0),
             inputSchema := (iterGroups ord groups).foldl applyGroup (bodySeedSchema bodyRes) },
           { method := m, path := p }) := by
  unfold synthOpV30
  rw [hid, hb, hg]

/-- Equation for a failing body resolution. -/
theorem synthOpV30_eq_errBody {doc : OpenApiDocV3} {ord : List ParameterType}
    {p m : String} {op : OperationV3} {name0 : String} {e : ParseError}
    (hid : op.operationId = some name0)
    (hb : bodyInfoV30 doc op = .error e) :
    synthOpV30 doc ord p m op = .error e := by
  unfold synthOpV30
  rw [hid, hb]

/-- Equation for a failing parameter grouping. -/
theorem synthOpV30_eq_errGroups {doc : OpenApiDocV3} {ord : List ParameterType}
    {p m : String} {op : OperationV3} {name0 : String}
    {bodyRes : Option (String × Json × Bool)} {e : ParseError}
    (hid : op.operationId = some name0)
    (hb : bodyInfoV30 doc op = .ok bodyRes)
    (hg : buildGroupsV30 doc op.parameters [] = .error e) :
    synthOpV30 doc ord p m op = .error e := by
  unfold synthOpV30
  rw [hid, hb, hg]

/-- The group names of one iteration are fresh for the body seed. -/
theorem iterGroups_fresh_for_seed (ord : List ParameterType) (groups : ParamGroups)
    {doc : OpenApiDocV3} {op : OperationV3} {bodyRes : Option (String × Json × Bool)}
    (hb : bodyInfoV30 doc op = .ok bodyRes) :
    ∀ kg ∈ iterGroups ord groups,
      kg.1.toStr ∉ fieldKeys (bodySeedSchema bodyRes).properties := by
  intro kg _ hin
  obtain ⟨bn, bs, rq, hbr, he⟩ := bodySeedSchema_keys hin
  rw [hbr] at hb
  have hbody := bodyInfoV30_name hb
  rw [hbody] at he
  cases hk : kg.1 <;> rw [hk] at he <;> simp [ParameterType.toStr] at he

/-- The group keys of one faithful iteration are pairwise distinct. -/
theorem iterGroups_nodup {ord : List ParameterType} (groups : ParamGroups)
    (h : PriorityOrder ord) :
    ((iterGroups ord groups).map (fun kg => kg.1)).Nodup :=
  (iterGroups_keys_sublist ord groups).nodup (priorityOrder_nodup h)

/-- Per-operation synthesis under two faithful iteration orders: equal
failures, or tools that differ at most in the order of `required` and of
the parameter-group properties. -/
theorem synthOpV30_rel {doc : OpenApiDocV3} {o1 o2 : List ParameterType}
    {p m : String} {op : OperationV3}
    (h1 : PriorityOrder o1) (h2 : PriorityOrder o2) :
    ExceptRel ToolOutputRel (synthOpV30 doc o1 p m op) (synthOpV30 doc o2 p m op) := by
  match hid : op.operationId with
  | none =>
    rw [synthOpV30_noId hid, synthOpV30_noId hid]
    exact .err
  | some name0 =>
    match hb : bodyInfoV30 doc op with
    | .error e =>
      rw [synthOpV30_eq_errBody hid hb, synthOpV30_eq_errBody hid hb]
      exact .err
    | .ok bodyRes =>
      match hg : buildGroupsV30 doc op.parameters [] with
      | .error e =>
        rw [synthOpV30_eq_errGroups hid hb hg, synthOpV30_eq_errGroups hid hb hg]
        exact .err
      | .ok groups =>
        rw [synthOpV30_eq_ok hid hb hg, synthOpV30_eq_ok hid hb hg]
        apply ExceptRel.ok
        have hs1 := foldl_applyGroup_spec (iterGroups o1 groups) (bodySeedSchema bodyRes)
          (iterGroups_fresh_for_seed o1 groups hb) (iterGroups_nodup groups h1)
        have hs2 := foldl_applyGroup_spec (iterGroups o2 groups) (bodySeedSchema bodyRes)
          (iterGroups_fresh_for_seed o2 groups hb) (iterGroups_nodup groups h2)
        have hperm := iterGroups_perm groups h1 h2
        refine ⟨rfl, rfl, rfl, ?_, ?_⟩
        · rw [hs1, hs2]
          exact List.Perm.append_left _ (hperm.filterMap groupEntryReq)
        · rw [hs1, hs2]
          exact List.Perm.append_left _ (hperm.map groupEntryProp)

/-- Lifting the per-operation relation through one path item. -/
theorem synthPathOpsV30_rel {doc : OpenApiDocV3}
    {ordAt1 ordAt2 : String → String → List ParameterType} {path : String}
    (h1 : ∀ p m, PriorityOrder (ordAt1 p m)) (h2 : ∀ p m, PriorityOrder (ordAt2 p m)) :
    ∀ (ops : List (String × OperationV3)),
      ExceptRel (List.Forall₂ ToolOutputRel)
        (synthPathOpsV30 doc ordAt1 path ops) (synthPathOpsV30 doc ordAt2 path ops) := by
  intro ops
  induction ops with
  | nil => exact .ok List.Forall₂.nil
  | cons mo rest ih =>
    obtain ⟨method, op⟩ := mo
    rw [synthPathOpsV30, synthPathOpsV30]
    have hop : ExceptRel ToolOutputRel
        (synthOpV30 doc (ordAt1 path method) path method op)
        (synthOpV30 doc (ordAt2 path method) path method op) :=
      synthOpV30_rel (h1 path method) (h2 path method)
    match hr1 : synthOpV30 doc (ordAt1 path method) path method op,
          hr2 : synthOpV30 doc (ordAt2 path method) path method op with
    | .error e1, .error e2 =>
      rw [hr1, hr2] at hop
      cases hop
      exact .err
    | .error e1, .ok b => rw [hr1, hr2] at hop; cases hop
    | .ok a, .error e2 => rw [hr1, hr2] at hop; cases hop
    | .ok a, .ok b =>
      rw [hr1, hr2] at hop
      cases hop with
      | ok hab =>
        match hs1 : synthPathOpsV30 doc ordAt1 path rest,
              hs2 : synthPathOpsV30 doc ordAt2 path rest with
        | .error e1, .error e2 =>
          rw [hs1, hs2] at ih
          cases ih
          exact .err
        | .error e1, .ok l2 => rw [hs1, hs2] at ih; cases ih
        | .ok l1, .error e2 => rw [hs1, hs2] at ih; cases ih
        | .ok l1, .ok l2 =>
          rw [hs1, hs2] at ih
          cases ih with
          | ok hl => exact .ok (List.Forall₂.cons hab hl)

/-- Lifting the relation through the path traversal. -/
theorem synthPathsV30_rel {doc : OpenApiDocV3}
    {ordAt1 ordAt2 : String → String → List ParameterType}
    (h1 : ∀ p m, PriorityOrder (ordAt1 p m)) (h2 : ∀ p m, PriorityOrder (ordAt2 p m)) :
    ∀ (paths : List (String × RefOr PathItemV3)),
      ExceptRel (List.Forall₂ (List.Forall₂ ToolOutputRel))
        (synthPathsV30 doc ordAt1 paths) (synthPathsV30 doc ordAt2 paths) := by
  intro paths
  induction paths with
  | nil => exact .ok List.Forall₂.nil
  | cons pp rest ih =>
    obtain ⟨path, pref⟩ := pp
    match href : pref with
    | .ref r =>
      rw [synthPathsV30, synthPathsV30]
      exact .err
    | .item pitem =>
      rw [synthPathsV30, synthPathsV30]
      have hops : ExceptRel (List.Forall₂ ToolOutputRel)
          (synthPathOpsV30 doc ordAt1 path pitem.ops)
          (synthPathOpsV30 doc ordAt2 path pitem.ops) :=
        synthPathOpsV30_rel h1 h2 pitem.ops
      match hr1 : synthPathOpsV30 doc ordAt1 path pitem.ops,
            hr2 : synthPathOpsV30 doc ordAt2 path pitem.ops with
      | .error e1, .error e2 =>
        rw [hr1, hr2] at hops
        cases hops
        exact .err
      | .error e1, .ok b => rw [hr1, hr2] at hops; cases hops
      | .ok a, .error e2 => rw [hr1, hr2] at hops; cases hops
      | .ok a, .ok b =>
        rw [hr1, hr2] at hops
        cases hops with
        | ok hab =>
          match hs1 : synthPathsV30 doc ordAt1 rest, hs2 : synthPathsV30 doc ordAt2 rest with
          | .error e1, .error e2 =>
            rw [hs1, hs2] at ih
            cases ih
            exact .err
          | .error e1, .ok l2 => rw [hs1, hs2] at ih; cases ih
          | .ok l1, .error e2 => rw [hs1, hs2] at ih; cases ih
          | .ok l1, .ok l2 =>
            rw [hs1, hs2] at ih
            cases ih with
            | ok hl => exact .ok (List.Forall₂.cons hab hl)

/-- C4 amended: synthesis is deterministic up to the iteration order of
each operation's `param_schemas` hash map — two runs under any two
faithful iteration orders fail identically or produce tool lists of the
same length in the same order with identical names, descriptions and
upstream calls, whose input schemas agree up to a permutation of the
top-level `required` list and of the parameter-group properties. -/
theorem c4_deterministic_up_to_group_order (doc : OpenApiDocV3)
    (ordAt1 ordAt2 : String → String → List ParameterType)
    (h1 : ∀ p m, PriorityOrder (ordAt1 p m)) (h2 : ∀ p m, PriorityOrder (ordAt2 p m)) :
    ExceptRel (List.Forall₂ ToolOutputRel)
      (parseOpenapiV30 doc ordAt1) (parseOpenapiV30 doc ordAt2) := by
  unfold parseOpenapiV30
  have hp : ExceptRel (List.Forall₂ (List.Forall₂ ToolOutputRel))
      (synthPathsV30 doc ordAt1 doc.paths) (synthPathsV30 doc ordAt2 doc.paths) :=
    synthPathsV30_rel h1 h2 doc.paths
  match hr1 : synthPathsV30 doc ordAt1 doc.paths, hr2 : synthPathsV30 doc ordAt2 doc.paths with
  | .error e1, .error e2 =>
    rw [hr1, hr2] at hp
    cases hp
    exact .err
  | .error e1, .ok b => rw [hr1, hr2] at hp; cases hp
  | .ok a, .error e2 => rw [hr1, hr2] at hp; cases hp
  | .ok a, .ok b =>
    rw [hr1, hr2] at hp
    cases hp with
    | ok hab => exact .ok (List.rel_flatten hab)

/-- An operation with one required query and one required header
parameter (both with inline string schemas). -/
def opQH : OperationV3 :=
  { operationId := some "qh", summary := none, description := none,
    parameters :=
      [.item { name := "q", location := .query, required := true, description := none,
               format := .schemaFmt (.item (.obj [("type", .str "string")])) },
       .item { name := "h", location := .header, required := true, description := none,
               format := .schemaFmt (.item (.obj [("type", .str "string")])) }],
    requestBody := none }

/-- The document witnessing the order sensitivity. -/
def docQH : OpenApiDocV3 :=
  { paths := [("/qh", .item { ops := [("get", opQH)] })], components := none }

/-- Projection of a synthesis result onto its top-level required lists
(order-sensitive, like the serialized JSON arrays). -/
def requiredListsOf (r : Except ParseError (List (ToolDefV30 × UpstreamCall))) :
    List (List String) :=
  match r with
  | .ok tus => tus.map (fun tu => tu.1.inputSchema.required)
  | .error _ => []

/-- C4, counterexample: two runs of the synthesizer on the same document
under two faithful hash-map iteration orders produce different outputs —
the top-level `required` list comes out as `[query, header]` in one run
and `[header, query]` in the other, so the output is not identical. -/
theorem c4_counterexample_order_sensitivity :
    PriorityOrder [ParameterType.query, ParameterType.header, ParameterType.path] ∧
    PriorityOrder [ParameterType.header, ParameterType.query, ParameterType.path] ∧
    requiredListsOf
        (parseOpenapiV30 docQH
          (fun _ _ => [ParameterType.query, ParameterType.header, ParameterType.path]))
      = [["query", "header"]] ∧
    requiredListsOf
        (parseOpenapiV30 docQH
          (fun _ _ => [ParameterType.header, ParameterType.query, ParameterType.path]))
      = [["header", "query"]] ∧
    parseOpenapiV30 docQH
        (fun _ _ => [ParameterType.query, ParameterType.header, ParameterType.path]) ≠
      parseOpenapiV30 docQH
        (fun _ _ => [ParameterType.header, ParameterType.query, ParameterType.path]) := by
  refine ⟨by decide, by decide, rfl, rfl, fun h => ?_⟩
  exact absurd (congrArg requiredListsOf h) (by decide)

/-- Witness for the amended C4 at the concrete order-sensitive document:
the two runs are related pointwise up to the permutations. -/
theorem c4_deterministic_up_to_group_order_witness :
    (∀ p m : String,
      PriorityOrder
        ((fun _ _ => [ParameterType.query, ParameterType.header, ParameterType.path]) p m)) ∧
    ExceptRel (List.Forall₂ ToolOutputRel)
      (parseOpenapiV30 docQH
        (fun _ _ => [ParameterType.query, ParameterType.header, ParameterType.path]))
      (parseOpenapiV30 docQH
        (fun _ _ => [ParameterType.header, ParameterType.query, ParameterType.path])) :=
  ⟨fun _ _ =>
    show PriorityOrder [ParameterType.query, ParameterType.header, ParameterType.path] from
      by decide,
   c4_deterministic_up_to_group_order docQH _ _
    (fun _ _ =>
      show PriorityOrder [ParameterType.query, ParameterType.header, ParameterType.path] from
        by decide)
    (fun _ _ =>
      show PriorityOrder [ParameterType.header, ParameterType.query, ParameterType.path] from
        by decide)⟩

/-! ### Presence and requiredness of schema groups (C7) -/

/-- Resolution, schema building and location classification of one
parameter reference, combined (`None` when any step fails; under an
accepted operation every step succeeds). -/
def paramEntryV30 (doc : OpenApiDocV3) (pref : RefOr ParameterV3) :
    Option (ParameterType × PropEntry) :=
  match resolveParameterV30 doc doc.refFuel pref with
  | .error _ => none
  | .ok item =>
    match buildSchemaPropertyV30 doc item with
    | .error _ => none
    | .ok entry =>
      match locToType item.location with
      | .error _ => none
      | .ok k => some (k, entry)

/-- The grouped entries of location `k` contributed by a parameter
list, in declaration order. -/
def entriesForV30 (doc : OpenApiDocV3) (k : ParameterType) (params : List (RefOr ParameterV3)) :
    List PropEntry :=
  params.filterMap (fun pref =>
    match paramEntryV30 doc pref with
    | some (k0, e) => if k0 = k then some e else none
    | none => none)

/-- The operation has at least one parameter of location `k`. -/
def opHasParamOfLoc (doc : OpenApiDocV3) (op : OperationV3) (k : ParameterType) : Bool :=
  op.parameters.any (fun pref =>
    match paramEntryV30 doc pref with
    | some (k0, _) => k0 == k
    | none => false)

/-- The operation has at least one required parameter of location `k`. -/
def opHasRequiredParamOfLoc (doc : OpenApiDocV3) (op : OperationV3) (k : ParameterType) : Bool :=
  op.parameters.any (fun pref =>
    match paramEntryV30 doc pref with
    | some (k0, e) => k0 == k && e.2.2
    | none => false)

/-- The operation carries an `application/json` request body (as seen by
the body-handling step). -/
def opHasJsonBody (doc : OpenApiDocV3) (op : OperationV3) : Bool :=
  match bodyInfoV30 doc op with
  | .ok (some _) => true
  | _ => false

/-- The operation's request body is marked required. -/
def opBodyRequired (doc : OpenApiDocV3) (op : OperationV3) : Bool :=
  match bodyInfoV30 doc op with
  | .ok (some (_, _, r)) => r
  | _ => false

/-- Lookup after pushing one entry into the group map. -/
theorem pushGroup_lookup (k0 : ParameterType) (e : PropEntry) :
    ∀ (acc : ParamGroups) (k : ParameterType),
      (pushGroup k0 e acc).lookup k =
        if k = k0 then some (((acc.lookup k0).getD []) ++ [e]) else acc.lookup k := by
  intro acc
  induction acc with
  | nil =>
    intro k
    by_cases hk : k = k0
    · subst hk
      simp [pushGroup, List.lookup]
    · have hb : (k == k0) = false := beq_eq_false_iff_ne.mpr hk
      simp [pushGroup, List.lookup, hb, hk]
  | cons hd tl ih =>
    intro k
    obtain ⟨k1, es1⟩ := hd
    rw [pushGroup]
    by_cases h10 : k1 = k0
    · rw [if_pos h10]
      subst h10
      by_cases hk : k = k1
      · subst hk
        simp [List.lookup]
      · have hb : (k == k1) = false := beq_eq_false_iff_ne.mpr hk
        simp [List.lookup, hb, hk]
    · rw [if_neg h10]
      by_cases hkk1 : k = k1
      · subst hkk1
        have hk0 : ¬ k = k0 := fun he => h10 he
        simp [List.lookup, if_neg hk0]
      · have hb : (k == k1) = false := beq_eq_false_iff_ne.mpr hkk1
        have hb2 : (k0 == k1) = false := beq_eq_false_iff_ne.mpr (fun he => h10 he.symm)
        simp [List.lookup, hb, hb2, ih]

/-- Closed form of the grouping loop: the final group of key `k` holds
the accumulator's entries followed by the contributions of the parameter
list for `k`, in declaration order; the key is absent when there are no
contributions and the accumulator has none. -/
theorem buildGroupsV30_lookup {doc : OpenApiDocV3} :
    ∀ {params : List (RefOr ParameterV3)} {acc groups : ParamGroups},
      buildGroupsV30 doc params acc = .ok groups →
      ∀ k, groups.lookup k =
        if (entriesForV30 doc k params).isEmpty then acc.lookup k
        else some (((acc.lookup k).getD []) ++ entriesForV30 doc k params) := by
  intro params
  induction params with
  | nil =>
    intro acc groups h k
    rw [buildGroupsV30] at h
    injection h with h
    rw [← h]
    simp [entriesForV30]
  | cons pref rest ih =>
    intro acc groups h k
    rw [buildGroupsV30] at h
    split at h
    · exact absurd h (by simp)
    next item hre =>
      split at h
      · exact absurd h (by simp)
      next entry hbp =>
        split at h
        · exact absurd h (by simp)
        next k0 hlt =>
          have hrec := ih h k
          have hent : entriesForV30 doc k (pref :: rest) =
              (if k0 = k then [entry] else []) ++ entriesForV30 doc k rest := by
            rw [entriesForV30, entriesForV30, List.filterMap_cons]
            simp only [paramEntryV30, hre, hbp, hlt]
            by_cases hk : k0 = k
            · rw [if_pos hk, if_pos hk]
              rfl
            · rw [if_neg hk, if_neg hk]
              rfl
          rw [hent, hrec, pushGroup_lookup]
          by_cases hk : k = k0
          · subst hk
            rw [if_pos rfl, if_pos rfl]
            by_cases he : (entriesForV30 doc k rest).isEmpty
            · rw [if_pos he]
              rw [List.isEmpty_iff] at he
              rw [he]
              simp
            · rw [if_neg he]
              have hne : ((entry :: entriesForV30 doc k rest).isEmpty) = false := by
                simp
              simp [List.append_assoc]
          · have hk0 : ¬ k0 = k := fun he => hk he.symm
            rw [if_neg hk, if_neg hk0]
            simp

/-- The required list of the body seed, in closed form. -/
theorem bodySeedSchema_required (bodyRes : Option (String × Json × Bool)) :
    (bodySeedSchema bodyRes).required =
      match bodyRes with
      | some (bn, _, true) => [bn, bn]
      | _ => [] := by
  match bodyRes with
  | none => rfl
  | some (bn, bs, true) => rfl
  | some (bn, bs, false) => rfl

/-- The properties of the body seed, in closed form (the double insert
collapses to one entry). -/
theorem bodySeedSchema_properties (bodyRes : Option (String × Json × Bool)) :
    (bodySeedSchema bodyRes).properties =
      match bodyRes with
      | some (bn, bs, _) => [(bn, bs)]
      | none => [] := by
  match bodyRes with
  | none => rfl
  | some (bn, bs, rq) =>
    show upsertField bn bs (upsertField bn bs []) = [(bn, bs)]
    simp [upsertField]

/-- Membership in a faithful iteration is exactly a successful map
lookup. -/
theorem iterGroups_mem {ord : List ParameterType} (groups : ParamGroups)
    (hord : PriorityOrder ord) (k : ParameterType) (es : List PropEntry) :
    (k, es) ∈ iterGroups ord groups ↔ groups.lookup k = some es := by
  constructor
  · intro h
    obtain ⟨k1, _, heq⟩ := List.mem_filterMap.mp h
    match hl : groups.lookup k1 with
    | none => rw [hl] at heq; exact absurd heq (by simp)
    | some es1 =>
      rw [hl] at heq
      simp at heq
      rw [← heq.1, ← heq.2]
      exact hl
  · intro h
    apply List.mem_filterMap.mpr
    refine ⟨k, ?_, by rw [h]; rfl⟩
    have : k ∈ [ParameterType.header, ParameterType.query, ParameterType.path] := by
      cases k <;> decide
    exact (hord.mem_iff).mpr this

/-- A group contribution of location `k` exists exactly when the
operation has a parameter of that location. -/
theorem entriesFor_exists_iff (doc : OpenApiDocV3) (k : ParameterType)
    (params : List (RefOr ParameterV3)) :
    (∃ e, e ∈ entriesForV30 doc k params) ↔
      (params.any (fun pref =>
        match paramEntryV30 doc pref with
        | some (k0, _) => k0 == k
        | none => false)) = true := by
  rw [List.any_eq_true]
  constructor
  · intro ⟨e, he⟩
    obtain ⟨pref, hmem, heq⟩ := List.mem_filterMap.mp he
    refine ⟨pref, hmem, ?_⟩
    match hp : paramEntryV30 doc pref with
    | none => rw [hp] at heq; exact absurd heq (by simp)
    | some (k0, e0) =>
      rw [hp] at heq
      have heq2 : (if k0 = k then some e0 else none) = some e := heq
      by_cases hk : k0 = k
      · simp [hk]
      · rw [if_neg hk] at heq2
        exact absurd heq2 (by simp)
  · intro ⟨pref, hmem, hp⟩
    match hpe : paramEntryV30 doc pref with
    | none => rw [hpe] at hp; exact absurd hp (by simp)
    | some (k0, e0) =>
      rw [hpe] at hp
      have hp2 : (k0 == k) = true := hp
      have hk : k0 = k := by simpa using hp2
      refine ⟨e0, List.mem_filterMap.mpr ⟨pref, hmem, ?_⟩⟩
      simp [hpe, hk]

/-- A required group contribution of location `k` exists exactly when
the operation has a required parameter of that location. -/
theorem entriesFor_required_exists_iff (doc : OpenApiDocV3) (k : ParameterType)
    (params : List (RefOr ParameterV3)) :
    (∃ e ∈ entriesForV30 doc k params, e.2.2 = true) ↔
      (params.any (fun pref =>
        match paramEntryV30 doc pref with
        | some (k0, e) => k0 == k && e.2.2
        | none => false)) = true := by
  rw [List.any_eq_true]
  constructor
  · intro ⟨e, he, hreq⟩
    obtain ⟨pref, hmem, heq⟩ := List.mem_filterMap.mp he
    refine ⟨pref, hmem, ?_⟩
    match hp : paramEntryV30 doc pref with
    | none => rw [hp] at heq; exact absurd heq (by simp)
    | some (k0, e0) =>
      rw [hp] at heq
      have heq2 : (if k0 = k then some e0 else none) = some e := heq
      by_cases hk : k0 = k
      · rw [if_pos hk] at heq2
        injection heq2 with heq2
        rw [heq2]
        simp [hk, hreq]
      · rw [if_neg hk] at heq2
        exact absurd heq2 (by simp)
  · intro ⟨pref, hmem, hp⟩
    match hpe : paramEntryV30 doc pref with
    | none => rw [hpe] at hp; exact absurd hp (by simp)
    | some (k0, e0) =>
      rw [hpe] at hp
      have hp2 : (k0 == k && e0.2.2) = true := hp
      simp at hp2
      refine ⟨e0, List.mem_filterMap.mpr ⟨pref, hmem, ?_⟩, hp2.2⟩
      simp [hpe, hp2.1]

/-- A group's required-name list is nonempty exactly when some entry is
required. -/
theorem groupRequiredNames_ne_nil_iff (es : List PropEntry) :
    groupRequiredNames es ≠ [] ↔ ∃ e ∈ es, e.2.2 = true := by
  rw [groupRequiredNames, Ne, List.filterMap_eq_nil_iff]
  constructor
  · intro h
    by_contra hno
    push_neg at hno
    apply h
    intro e he
    have := hno e he
    simp [this]
  · intro ⟨e, he, hreq⟩ hall
    have := hall e he
    rw [hreq] at this
    simp at this

/-- Shape of one `required` contribution of the group loop. -/
theorem groupEntryReq_some {kg : ParameterType × List PropEntry} {x : String}
    (h : groupEntryReq kg = some x) :
    x = kg.1.toStr ∧ (groupRequiredNames kg.2).isEmpty = false := by
  rw [groupEntryReq] at h
  by_cases he : (groupRequiredNames kg.2).isEmpty
  · rw [if_pos he] at h
    exact absurd h (by simp)
  · rw [if_neg he] at h
    injection h with h
    exact ⟨h.symm, by simpa using he⟩

/-- A group name is never the body property name. -/
theorem toStr_ne_body (k : ParameterType) : k.toStr ≠ "body" := by
  cases k <;> simp [ParameterType.toStr]

/-- Membership in the required list of the body seed forces a required
body. -/
theorem bodySeedSchema_required_mem {bodyRes : Option (String × Json × Bool)} {x : String}
    (h : x ∈ (bodySeedSchema bodyRes).required) :
    ∃ bn bs, bodyRes = some (bn, bs, true) ∧ x = bn := by
  match bodyRes with
  | none => simp [bodySeedSchema_required] at h
  | some (bn, bs, true) =>
    refine ⟨bn, bs, rfl, ?_⟩
    simp [bodySeedSchema_required] at h
    exact h
  | some (bn, bs, false) => simp [bodySeedSchema_required] at h

/-- Every key of the group-property block is a group name. -/
theorem fieldKeys_groupProps_mem {iter : List (ParameterType × List PropEntry)} {x : String}
    (h : x ∈ fieldKeys (iter.map groupEntryProp)) : ∃ kg ∈ iter, x = kg.1.toStr := by
  rw [fieldKeys, List.map_map] at h
  obtain ⟨kg, hm, he⟩ := List.mem_map.mp h
  refine ⟨kg, hm, ?_⟩
  simp only [Function.comp_apply, groupEntryProp] at he
  exact he.symm

/-- Every name in the group-required block is a group name. -/
theorem filterMap_groupReq_mem {iter : List (ParameterType × List PropEntry)} {x : String}
    (h : x ∈ iter.filterMap groupEntryReq) : ∃ kg ∈ iter, x = kg.1.toStr := by
  obtain ⟨kg, hm, he⟩ := List.mem_filterMap.mp h
  exact ⟨kg, hm, (groupEntryReq_some he).1⟩

/-- C7: in the 3.0 synthesizer, for every accepted operation and any
faithful iteration order, each of the four top-level properties is
present in the tool's input schema exactly when the operation has at
least one field of that kind, and is listed in the top-level `required`
exactly when at least one of its fields is required (for `body`: exactly
when the request body is present and marked required). -/
theorem c7_presence_and_required (doc : OpenApiDocV3) (ord : List ParameterType)
    (p m : String) (op : OperationV3) (t : ToolDefV30) (u : UpstreamCall)
    (hord : PriorityOrder ord)
    (h : synthOpV30 doc ord p m op = .ok (t, u)) :
    (("body" ∈ fieldKeys t.inputSchema.properties) ↔ opHasJsonBody doc op = true) ∧
    (("body" ∈ t.inputSchema.required) ↔
      (opHasJsonBody doc op = true ∧ opBodyRequired doc op = true)) ∧
    (∀ k : ParameterType,
      (k.toStr ∈ fieldKeys t.inputSchema.properties) ↔ opHasParamOfLoc doc op k = true) ∧
    (∀ k : ParameterType,
      (k.toStr ∈ t.inputSchema.required) ↔ opHasRequiredParamOfLoc doc op k = true) := by
  obtain ⟨name0, bodyRes, groups, hid, hb, hg, ht, hu⟩ := synthOpV30_ok_elim h
  have hspec := foldl_applyGroup_spec (iterGroups ord groups) (bodySeedSchema bodyRes)
    (iterGroups_fresh_for_seed ord groups hb) (iterGroups_nodup groups hord)
  have hlk := buildGroupsV30_lookup hg
  have hjson : opHasJsonBody doc op = bodyRes.isSome := by
    rw [opHasJsonBody, hb]
    cases bodyRes with
    | none => rfl
    | some v => rfl
  have hbreq : opBodyRequired doc op =
      (match bodyRes with | some (_, _, r) => r | none => false) := by
    simp only [opBodyRequired, hb]
    cases bodyRes with
    | none => rfl
    | some v => obtain ⟨bn, bs, rq⟩ := v; rfl
  have hbn : ∀ bn bs rq, bodyRes = some (bn, bs, rq) → bn = "body" := by
    intro bn bs rq hbr
    rw [hbr] at hb
    exact bodyInfoV30_name hb
  rw [ht]
  simp only [hspec]
  have hlook : ∀ k : ParameterType, groups.lookup k =
      if (entriesForV30 doc k op.parameters).isEmpty then none
      else some (entriesForV30 doc k op.parameters) := by
    intro k
    rw [hlk k]
    rfl
  have hmemProps : ∀ k : ParameterType,
      (k.toStr ∈ fieldKeys ((iterGroups ord groups).map groupEntryProp)) ↔
        (entriesForV30 doc k op.parameters) ≠ [] := by
    intro k
    constructor
    · intro hmem
      obtain ⟨kg, hkg, he⟩ := fieldKeys_groupProps_mem hmem
      have hkk : kg.1 = k := ParameterType.toStr_inj he.symm
      have hiter : (k, kg.2) ∈ iterGroups ord groups := by
        rw [← hkk]
        exact hkg
      have hsome := (iterGroups_mem groups hord k kg.2).mp hiter
      rw [hlook k] at hsome
      by_cases hE : (entriesForV30 doc k op.parameters).isEmpty
      · rw [if_pos hE] at hsome
        exact absurd hsome (by simp)
      · intro hnil
        rw [hnil] at hE
        exact hE rfl
    · intro hne
      have hE : (entriesForV30 doc k op.parameters).isEmpty = false := by
        cases hc : entriesForV30 doc k op.parameters with
        | nil => exact absurd hc hne
        | cons a l => simp
      have hlkk : groups.lookup k = some (entriesForV30 doc k op.parameters) := by
        rw [hlook k, hE]
        simp
      have hiter := (iterGroups_mem groups hord k _).mpr hlkk
      rw [fieldKeys, List.map_map]
      apply List.mem_map.mpr
      exact ⟨(k, entriesForV30 doc k op.parameters), hiter, rfl⟩
  have hmemReq : ∀ k : ParameterType,
      (k.toStr ∈ (iterGroups ord groups).filterMap groupEntryReq) ↔
        (∃ e ∈ entriesForV30 doc k op.parameters, e.2.2 = true) := by
    intro k
    constructor
    · intro hmem
      obtain ⟨kg, hkg, he⟩ := List.mem_filterMap.mp hmem
      obtain ⟨hx, hreq⟩ := groupEntryReq_some he
      have hkk : kg.1 = k := ParameterType.toStr_inj hx.symm
      have hiter : (k, kg.2) ∈ iterGroups ord groups := by
        rw [← hkk]; exact hkg
      have hsome := (iterGroups_mem groups hord k kg.2).mp hiter
      rw [hlook k] at hsome
      by_cases hE : (entriesForV30 doc k op.parameters).isEmpty
      · rw [if_pos hE] at hsome
        exact absurd hsome (by simp)
      · rw [if_neg hE] at hsome
        injection hsome with hsome
        rw [hsome]
        exact (groupRequiredNames_ne_nil_iff kg.2).mp (by simpa using hreq)
    · intro hex
      obtain ⟨e, hee, hreq⟩ := hex
      have hne : entriesForV30 doc k op.parameters ≠ [] := by
        intro hnil
        rw [hnil] at hee
        exact absurd hee (List.not_mem_nil e)
      have hE : (entriesForV30 doc k op.parameters).isEmpty = false := by
        cases hc : entriesForV30 doc k op.parameters with
        | nil => exact absurd hc hne
        | cons a l => simp
      have hlkk : groups.lookup k = some (entriesForV30 doc k op.parameters) := by
        rw [hlook k, hE]
        simp
      have hiter := (iterGroups_mem groups hord k _).mpr hlkk
      apply List.mem_filterMap.mpr
      refine ⟨(k, entriesForV30 doc k op.parameters), hiter, ?_⟩
      have hnE : (groupRequiredNames (entriesForV30 doc k op.parameters)).isEmpty = false := by
        have hne2 := (groupRequiredNames_ne_nil_iff (entriesForV30 doc k op.parameters)).mpr
          ⟨e, hee, hreq⟩
        cases hcc : groupRequiredNames (entriesForV30 doc k op.parameters) with
        | nil => exact absurd hcc hne2
        | cons a l => simp
      simp [groupEntryReq, hnE]
  refine ⟨?_, ?_, ?_, ?_⟩
  · rw [fieldKeys, List.map_append, List.mem_append, ← fieldKeys, ← fieldKeys, hjson]
    cases bodyRes with
    | none =>
      constructor
      · intro hmem
        rcases hmem with hmem | hmem
        · obtain ⟨bn, bs, rq, hbr, he⟩ := bodySeedSchema_keys hmem
          exact absurd hbr (by simp)
        · obtain ⟨kg, _, he⟩ := fieldKeys_groupProps_mem hmem
          exact absurd he.symm (toStr_ne_body kg.1)
      · intro hfalse
        exact absurd hfalse (by simp)
    | some v =>
      obtain ⟨bn, bs, rq⟩ := v
      have hbn1 : bn = "body" := hbn bn bs rq rfl
      subst hbn1
      constructor
      · intro _
        rfl
      · intro _
        left
        simp [bodySeedSchema_properties, fieldKeys]
  · rw [List.mem_append, hjson, hbreq]
    cases bodyRes with
    | none =>
      constructor
      · intro hmem
        rcases hmem with hmem | hmem
        · obtain ⟨bn, bs, hbr, _⟩ := bodySeedSchema_required_mem hmem
          exact absurd hbr (by simp)
        · obtain ⟨kg, _, he⟩ := filterMap_groupReq_mem hmem
          exact absurd he.symm (toStr_ne_body kg.1)
      · intro ⟨hfalse, _⟩
        exact absurd hfalse (by simp)
    | some v =>
      obtain ⟨bn, bs, rq⟩ := v
      have hbn1 : bn = "body" := hbn bn bs rq rfl
      subst hbn1
      cases rq with
      | true =>
        constructor
        · intro _
          exact ⟨rfl, rfl⟩
        · intro _
          left
          simp [bodySeedSchema_required]
      | false =>
        constructor
        · intro hmem
          rcases hmem with hmem | hmem
          · obtain ⟨bn1, bs1, hbr, _⟩ := bodySeedSchema_required_mem hmem
            exact absurd hbr (by simp)
          · obtain ⟨kg, _, he⟩ := filterMap_groupReq_mem hmem
            exact absurd he.symm (toStr_ne_body kg.1)
        · intro ⟨_, hfalse⟩
          exact absurd hfalse (by simp)
  · intro k
    rw [fieldKeys, List.map_append, List.mem_append, ← fieldKeys, ← fieldKeys]
    rw [opHasParamOfLoc, ← entriesFor_exists_iff]
    constructor
    · intro hmem
      rcases hmem with hmem | hmem
      · obtain ⟨bn, bs, rq, hbr, he⟩ := bodySeedSchema_keys hmem
        have hbn1 : bn = "body" := hbn bn bs rq hbr
        rw [hbn1] at he
        exact absurd he (toStr_ne_body k)
      · have hne := (hmemProps k).mp hmem
        cases hc : entriesForV30 doc k op.parameters with
        | nil => exact absurd hc hne
        | cons a l =>
          exact ⟨a, List.mem_cons_self a l⟩
    · intro ⟨e, he⟩
      right
      apply (hmemProps k).mpr
      intro hnil
      rw [hnil] at he
      exact absurd he (List.not_mem_nil e)
  · intro k
    rw [List.mem_append]
    rw [opHasRequiredParamOfLoc, ← entriesFor_required_exists_iff]
    constructor
    · intro hmem
      rcases hmem with hmem | hmem
      · obtain ⟨bn, bs, hbr, he⟩ := bodySeedSchema_required_mem hmem
        have hbn1 : bn = "body" := hbn bn bs true hbr
        rw [hbn1] at he
        exact absurd he (toStr_ne_body k)
      · exact (hmemReq k).mp hmem
    · intro hex
      right
      exact (hmemReq k).mpr hex

/-- The tool `docQH` synthesizes to when the map iterates header before
query. -/
def qhTool : ToolDefV30 :=
  { name := "qh", description := some "qh",
    inputSchema :=
      { required := ["header", "query"],
        properties :=
          [("header",
            .obj [("required", .arr [.str "h"]),
                  ("properties", .obj [("h", .obj [("type", .str "string")])]),
                  ("type", .str "object")]),
           ("query",
            .obj [("required", .arr [.str "q"]),
                  ("properties", .obj [("q", .obj [("type", .str "string")])]),
                  ("type", .str "object")])] } }

/-- Witness for C7 at a concrete document: the order is faithful, the
operation synthesizes to `qhTool`, and presence/required of the group
properties match the operation's parameters. -/
theorem c7_presence_and_required_witness :
    PriorityOrder [ParameterType.header, ParameterType.query, ParameterType.path] ∧
    synthOpV30 docQH [ParameterType.header, ParameterType.query, ParameterType.path]
        "/qh" "get" opQH = .ok (qhTool, { method := "get", path := "/qh" }) ∧
    (("body" ∈ fieldKeys qhTool.inputSchema.properties) ↔ opHasJsonBody docQH opQH = true) ∧
    ((ParameterType.query.toStr ∈ fieldKeys qhTool.inputSchema.properties) ↔
      opHasParamOfLoc docQH opQH ParameterType.query = true) ∧
    ((ParameterType.query.toStr ∈ qhTool.inputSchema.required) ↔
      opHasRequiredParamOfLoc docQH opQH ParameterType.query = true) ∧
    ((ParameterType.path.toStr ∈ fieldKeys qhTool.inputSchema.properties) ↔
      opHasParamOfLoc docQH opQH ParameterType.path = true) := by
  have hmain := c7_presence_and_required docQH
    [ParameterType.header, ParameterType.query, ParameterType.path]
    "/qh" "get" opQH qhTool { method := "get", path := "/qh" } (by decide) rfl
  exact ⟨by decide, rfl, hmain.1, hmain.2.2.1 ParameterType.query,
    hmain.2.2.2 ParameterType.query, hmain.2.2.1 ParameterType.path⟩
